import Mathlib

/-!
Verification development for the pbRun training-analytics engine.

The TypeScript/JavaScript sources are shallowly embedded as Lean
definitions:

* JavaScript numbers are modelled as exact rationals; integer quantities
  (counts, zone numbers, epoch milliseconds) as integers.
* JavaScript `Math.exp` is a transcendental float routine; every
  definition that uses it is parametrised by an arbitrary function
  `exp : Q -> Q`, so the theorems hold for every possible exponential.
* `Date` values are UTC epoch milliseconds; the Gregorian conversions
  implement the standard civil-from-days / days-from-civil algorithms,
  matching the UTC accessors of JavaScript `Date`.  The host timezone is
  assumed to be UTC (the deployment target of the repository).
* Strings stay strings.  JavaScript string comparison (`<`, `>=`,
  `localeCompare` on ASCII data) and the SQLite BINARY collation are the
  codepoint-lexicographic order `strLtB` defined below.
* JavaScript stable `Array.prototype.sort` and the deterministic model of
  the SQL `ORDER BY` clauses are the stable insertion sort `sortBy`.
* A JavaScript `Map` is an insertion-ordered association list.
-/

namespace PbRun

/-! ## Shared numeric helpers -/

/-- Floor division, written with the integer division of this library,
which rounds toward negative infinity for positive divisors: this is
exactly the behaviour of `Math.floor(a / b)` for integer `a` and positive
integer `b`. -/
def floorDiv (a b : ℤ) : ℤ := a / b

/-- Ceiling division for a positive divisor: the value of
`Math.ceil(a / b)` for integer `a` and positive integer `b`. -/
def ceilDiv (a b : ℤ) : ℤ := -((-a) / b)

/-- JavaScript `Math.round`: round half toward positive infinity. -/
def jsRound (q : ℚ) : ℤ := ⌊q + 1/2⌋

/-- JavaScript truthiness of an optional number (`null` and `0` are
falsy). -/
def truthyNum : Option ℚ → Bool
  | none => false
  | some q => q != 0

/-- The JavaScript idiom `x || 0` applied to a nullable number. -/
def orZero (o : Option ℚ) : ℚ := o.getD 0

/-- The JavaScript idiom `q || null` for a number `q`. -/
def truthyOrNone (q : ℚ) : Option ℚ := if q = 0 then none else some q

/-! ## Strings and stable sorting -/

/-- Strict codepoint-lexicographic order on character lists.  On the
ASCII data handled by the repository this is exactly the JavaScript
string order and the SQLite BINARY collation. -/
def charListLt : List Char → List Char → Bool
  | [], [] => false
  | [], _ :: _ => true
  | _ :: _, [] => false
  | a :: as, b :: bs => a.toNat < b.toNat || (a.toNat = b.toNat && charListLt as bs)

/-- JavaScript `a < b` on strings. -/
def strLtB (a b : String) : Bool := charListLt a.data b.data

/-- JavaScript `a >= b` on strings (the negation of `<`). -/
def strGeB (a b : String) : Bool := ! strLtB a b

/-- JavaScript `a <= b` on strings. -/
def strLeB (a b : String) : Bool := ! strLtB b a

/-- Insert an element into a sorted list, after every element `b` with
`le b a`; this is the stable insertion position. -/
def insertLe {α : Type} (le : α → α → Bool) (a : α) : List α → List α
  | [] => [a]
  | b :: bs => if le b a then b :: insertLe le a bs else a :: b :: bs

/-- Stable insertion sort: the model of JavaScript stable sorts and of
the deterministic reading of SQL ORDER BY. -/
def sortBy {α : Type} (le : α → α → Bool) (l : List α) : List α :=
  l.foldl (fun acc x => insertLe le x acc) []

/-- Lookup in an insertion-ordered association list (JavaScript
`Map.get`). -/
def lookupKey {β : Type} (m : List (String × β)) (k : String) : Option β :=
  match m with
  | [] => none
  | (k2, v) :: rest => if k2 = k then some v else lookupKey rest k

/-- Update in an insertion-ordered association list (JavaScript
`Map.set`): replace in place, or append a fresh key at the end. -/
def setKey {β : Type} (m : List (String × β)) (k : String) (v : β) : List (String × β) :=
  match m with
  | [] => [(k, v)]
  | (k2, v2) :: rest => if k2 = k then (k, v) :: rest else (k2, v2) :: setKey rest k v

/-! ## UTC calendar arithmetic

Standard civil calendar conversions (Gregorian, proleptic), used to model
the UTC accessors of JavaScript `Date`. -/

/-- Milliseconds per UTC day. -/
def msPerDay : ℤ := 86400000

/-- Convert a day number (days since 1970-01-01) to a civil date
(year, month, day). -/
def civilFromDays (z0 : ℤ) : ℤ × ℤ × ℤ :=
  let z := z0 + 719468
  let era := floorDiv z 146097
  let doe := z - era * 146097
  let yoe := floorDiv (doe - floorDiv doe 1460 + floorDiv doe 36524 - floorDiv doe 146096) 365
  let y := yoe + era * 400
  let doy := doe - (365 * yoe + floorDiv yoe 4 - floorDiv yoe 100)
  let mp := floorDiv (5 * doy + 2) 153
  let d := doy - floorDiv (153 * mp + 2) 5 + 1
  let m := mp + (if mp < 10 then 3 else -9)
  (if m ≤ 2 then y + 1 else y, m, d)

/-- Convert a civil date (year, month, day) to a day number. -/
def daysFromCivil (y0 m d : ℤ) : ℤ :=
  let y := if m ≤ 2 then y0 - 1 else y0
  let era := floorDiv y 400
  let yoe := y - era * 400
  let mp := (m + 9) % 12
  let doy := floorDiv (153 * mp + 2) 5 + d - 1
  let doe := yoe * 365 + floorDiv yoe 4 - floorDiv yoe 100 + doy
  era * 146097 + doe - 719468

/-- The `getUTCFullYear` accessor of a `Date` holding `ms` epoch
milliseconds. -/
def getUTCFullYear (ms : ℤ) : ℤ := (civilFromDays (floorDiv ms msPerDay)).1

/-- The month (1-12) of the UTC date; `getUTCMonth() + 1` in JavaScript. -/
def getUTCMonth1 (ms : ℤ) : ℤ := (civilFromDays (floorDiv ms msPerDay)).2.1

/-- The UTC day of month. -/
def getUTCDayOfMonth (ms : ℤ) : ℤ := (civilFromDays (floorDiv ms msPerDay)).2.2

/-- The `getUTCDay` accessor (0 = Sunday); 1970-01-01 was a Thursday. -/
def getUTCDayOfWeek (ms : ℤ) : ℤ := (floorDiv ms msPerDay + 4) % 7

/-- Epoch milliseconds of `Date.UTC(year, 0, 1)`. -/
def jan1Ms (y : ℤ) : ℤ := daysFromCivil y 1 1 * msPerDay

/-- Two-digit zero padding of a number, as in
`String(n).padStart(2, "0")`. -/
def pad2 (n : ℤ) : String :=
  let s := toString n
  if s.length < 2 then "0" ++ s else s

/-- Four-digit zero padding for the year rendered by `toISOString`. -/
def pad4 (n : ℤ) : String :=
  let s := toString n
  if s.length = 1 then "000" ++ s
  else if s.length = 2 then "00" ++ s
  else if s.length = 3 then "0" ++ s
  else s

/-- The date part of `toISOString()`: the string
`YYYY-MM-DD` of the UTC date holding `ms`. -/
def isoDateOfMs (ms : ℤ) : String :=
  let c := civilFromDays (floorDiv ms msPerDay)
  pad4 c.1 ++ "-" ++ pad2 c.2.1 ++ "-" ++ pad2 c.2.2

/-- Parse the subset of ISO-8601 date strings used by the repository
(`YYYY-MM-DD`, optionally followed by `THH:MM:SS`, `.mmm` and a `Z`
suffix) into epoch milliseconds, as `new Date(s).getTime()` does for
these shapes.  The digit value of a character. -/
def digitVal (c : Char) : ℤ := (c.toNat : ℤ) - 48

/-- Parse an ISO date or date-time string into epoch milliseconds.
Date-only strings denote UTC midnight, exactly as in JavaScript. -/
def parseDateMs (s : String) : ℤ :=
  match s.data with
  | y1 :: y2 :: y3 :: y4 :: _ :: mo1 :: mo2 :: _ :: d1 :: d2 :: rest =>
    let y := 1000 * digitVal y1 + 100 * digitVal y2 + 10 * digitVal y3 + digitVal y4
    let mo := 10 * digitVal mo1 + digitVal mo2
    let d := 10 * digitVal d1 + digitVal d2
    let base := daysFromCivil y mo d * msPerDay
    match rest with
    | _ :: h1 :: h2 :: _ :: mi1 :: mi2 :: _ :: s1 :: s2 :: rest2 =>
      let tod := ((10 * digitVal h1 + digitVal h2) * 3600
        + (10 * digitVal mi1 + digitVal mi2) * 60
        + (10 * digitVal s1 + digitVal s2)) * 1000
      let msFrac := match rest2 with
        | _ :: a :: b :: c :: _ => 100 * digitVal a + 10 * digitVal b + digitVal c
        | _ => 0
      base + tod + msFrac
    | _ => base
  | _ => 0

/-! ## scripts/vdot-calculator.js -/

/-- The constructor state of `VDOTCalculator` (max and resting heart
rate). -/
structure VDOTCalculator where
  maxHr : ℚ
  restingHr : ℚ
deriving DecidableEq, Repr

/-- `VDOTCalculator.getHrZone`: heart-rate zone 1-5 from the percentage
of max heart rate, 0 when the heart rate is not positive. -/
def VDOTCalculator.getHrZone (c : VDOTCalculator) (avgHr : ℚ) : ℤ :=
  if avgHr ≤ 0 then 0
  else
    let hrPercent := avgHr / c.maxHr * 100
    if hrPercent < 70 then 1
    else if hrPercent < 80 then 2
    else if hrPercent < 87 then 3
    else if hrPercent < 93 then 4
    else 5

/-- The `zoneMultipliers[hrZone] || 1.0` lookup in
`calculateVdotFromPace`. -/
def zoneMultiplier (z : ℤ) : ℚ :=
  if z = 1 then 0.97
  else if z = 2 then 0.99
  else if z = 3 then 1.00
  else if z = 4 then 1.00
  else if z = 5 then 1.00
  else 1.0

/-- The fraction-of-VO2max expression computed inside
`calculateVdotFromPace`, as a function of the duration in seconds. -/
def percentVo2maxOf (exp : ℚ → ℚ) (durationSeconds : ℚ) : ℚ :=
  let t := durationSeconds / 60
  0.8 + 0.1894393 * exp (-0.012778 * t) + 0.2989558 * exp (-0.1932605 * t)

/-- The VO2 expression of the Daniels formula, as a function of the
velocity in meters per minute. -/
def vo2Of (velocityMPerMin : ℚ) : ℚ :=
  -4.60 + 0.182258 * velocityMPerMin + 0.000104 * velocityMPerMin ^ 2

/-- The pre-rounding VDOT value computed inside `calculateVdotFromPace`
(after the zone multiplier, before the sanity bounds). -/
def rawVdotOf (exp : ℚ → ℚ) (c : VDOTCalculator)
    (distanceMeters durationSeconds : ℚ) (avgHr : Option ℚ) : ℚ :=
  let durationMinutes := durationSeconds / 60
  let velocityMPerMin := distanceMeters / durationMinutes
  let vdot0 := vo2Of velocityMPerMin / percentVo2maxOf exp durationSeconds
  match avgHr with
  | some h => if h ≠ 0 ∧ 0 < h then vdot0 * zoneMultiplier (c.getHrZone h) else vdot0
  | none => vdot0

/-- `VDOTCalculator.calculateVdotFromPace`, parametrised by the
exponential routine.  Returns `none` exactly where the source returns
`null`. -/
def calculateVdotFromPace (exp : ℚ → ℚ) (c : VDOTCalculator)
    (distanceMeters durationSeconds : ℚ) (avgHr : Option ℚ) : Option ℚ :=
  if durationSeconds ≤ 0 ∨ distanceMeters ≤ 0 then none
  else
    let durationMinutes := durationSeconds / 60
    let velocityMPerMin := distanceMeters / durationMinutes
    if velocityMPerMin ≤ 0 then none
    else
      let percentVo2max := percentVo2maxOf exp durationSeconds
      if percentVo2max ≤ 0 ∨ 1 < percentVo2max then none
      else
        let vdot := rawVdotOf exp c distanceMeters durationSeconds avgHr
        if vdot < 20 ∨ 100 < vdot then none
        else some ((jsRound (vdot * 10) : ℚ) / 10)

/-- `VDOTCalculator.calculateTrainingLoad` (kept for completeness of the
estimator model). -/
def calculateTrainingLoad (c : VDOTCalculator) (durationSeconds : ℚ) (avgHr : Option ℚ) : ℤ :=
  if durationSeconds ≤ 0 then 0
  else
    let durationHours := durationSeconds / 3600
    let baseLoad := durationHours * 100
    let factor : ℚ :=
      match avgHr with
      | some h =>
        if h ≠ 0 ∧ 0 < h then
          let z := c.getHrZone h
          if z = 1 then 0.6
          else if z = 2 then 0.8
          else if z = 3 then 1.0
          else if z = 4 then 1.3
          else if z = 5 then 1.5
          else 1.0
        else 1
      | none => 1
    jsRound (baseLoad * factor)

/-! ## app/lib/db.ts: period keys -/

/-- The two aggregation granularities of the analytics queries. -/
inductive GroupBy
  | week
  | month
deriving DecidableEq, Repr

/-- The string stored in the `period_type` column for a granularity. -/
def GroupBy.toStr : GroupBy → String
  | .week => "week"
  | .month => "month"

/-- Core of `getPeriodFromDate` on an already parsed timestamp: month key
`YYYY-MM`, or week key `YYYY-Www` with the day count floored to whole
days before the ceiling division. -/
def periodOfMs (ms : ℤ) (groupBy : GroupBy) : String :=
  match groupBy with
  | .month => toString (getUTCFullYear ms) ++ "-" ++ pad2 (getUTCMonth1 ms)
  | .week =>
    let year := getUTCFullYear ms
    let startOfYear := jan1Ms year
    let daysSinceStartOfYear := floorDiv (ms - startOfYear) msPerDay
    let weekNo := ceilDiv (daysSinceStartOfYear + getUTCDayOfWeek startOfYear + 1) 7
    toString year ++ "-W" ++ pad2 weekNo

/-- `getPeriodFromDate` of db.ts (used by the cached paths). -/
def getPeriodFromDate (dateStr : String) (groupBy : GroupBy) : String :=
  periodOfMs (parseDateMs dateStr) groupBy

/-- Core of the inline `getPeriod` helper of the realtime paths: same
month key, but the week number divides the raw (fractional) millisecond
difference, without flooring to whole days.  With exact arithmetic,
`Math.ceil((diffMs / 86400000 + w + 1) / 7)` equals the integer ceiling
division of `diffMs + (w + 1) * 86400000` by `7 * 86400000`. -/
def rtPeriodOfMs (ms : ℤ) (groupBy : GroupBy) : String :=
  match groupBy with
  | .month => toString (getUTCFullYear ms) ++ "-" ++ pad2 (getUTCMonth1 ms)
  | .week =>
    let year := getUTCFullYear ms
    let startOfYear := jan1Ms year
    let weekNo := ceilDiv ((ms - startOfYear) + (getUTCDayOfWeek startOfYear + 1) * msPerDay) (7 * msPerDay)
    toString year ++ "-W" ++ pad2 weekNo

/-- The inline `getPeriod` helper of `getHrZoneStatsRealtime` and
`getVDOTTrendRealtime`. -/
def rtGetPeriod (groupBy : GroupBy) (dateStr : String) : String :=
  rtPeriodOfMs (parseDateMs dateStr) groupBy

/-! ## app/lib/db.ts: heart-rate zone statistics -/

/-- A row of the `hr_zone_stats_cache` table, and equally a realtime
rollup (`HrZoneStat` of app/lib/types.ts). -/
structure HrZoneStat where
  period : String
  period_type : String
  hr_zone : ℤ
  activity_count : ℤ
  total_duration : ℚ
  total_distance : ℚ
  avg_pace : Option ℚ
  avg_cadence : Option ℚ
  avg_stride_length : Option ℚ
  avg_heart_rate : Option ℚ
deriving DecidableEq, Repr

/-- A row of the `activities` table, restricted to the columns read by
the analytics queries.  `start_time` is the stored ISO string. -/
structure ActivityRow where
  activity_id : ℤ
  start_time : String
  duration : Option ℚ
  distance : Option ℚ
  average_pace : Option ℚ
  average_cadence : Option ℚ
  average_stride_length : Option ℚ
  average_heart_rate : Option ℚ
  vdot_value : Option ℚ
deriving DecidableEq, Repr

/-- Query parameters shared by `HrZoneAnalysisParams` and
`VDOTTrendParams` of app/lib/types.ts: optional ISO date bounds and a
granularity. -/
structure AnalysisParams where
  startDate : Option String
  endDate : Option String
  groupBy : GroupBy
deriving DecidableEq, Repr

/-- JavaScript truthiness of an optional string (absent and empty are
falsy). -/
def truthyStr : Option String → Bool
  | none => false
  | some s => s != ""

/-- The ORDER BY (period, hr_zone) comparator, also used by the
JavaScript sort comparator of the realtime and merge paths. -/
def hrRowLe (a b : HrZoneStat) : Bool :=
  strLtB a.period b.period || (a.period = b.period && a.hr_zone ≤ b.hr_zone)

/-- The ORDER BY start_time comparator for activity rows. -/
def startTimeLe (a b : ActivityRow) : Bool :=
  strLeB a.start_time b.start_time

/-- `getHrZoneStatsFromCache`: select rows of the cache table matching
the granularity and the period range derived from the optional date
bounds, ordered by (period, hr_zone). -/
def getHrZoneStatsFromCache (cache : List HrZoneStat) (params : AnalysisParams) : List HrZoneStat :=
  let rows := cache.filter (fun r =>
    r.period_type = params.groupBy.toStr
    && (match params.startDate with
        | some s => if s ≠ "" then strLeB (getPeriodFromDate s params.groupBy) r.period else true
        | none => true)
    && (match params.endDate with
        | some e => if e ≠ "" then strLeB r.period (getPeriodFromDate e params.groupBy) else true
        | none => true))
  sortBy hrRowLe rows

/-- The inline `getHrZone` helper of `getHrZoneStatsRealtime` (maxHr
comes from the environment, default 190). -/
def rtGetHrZone (maxHr avgHr : ℚ) : ℤ :=
  if avgHr ≤ 0 then 0
  else
    let hrPercent := avgHr / maxHr * 100
    if hrPercent < 70 then 1
    else if hrPercent < 80 then 2
    else if hrPercent < 87 then 3
    else if hrPercent < 93 then 4
    else 5

/-- The incremental mean update of the realtime aggregation: a truthy
sample `s` moves the mean to `(prev * (n - 1) + s) / n`; a falsy sample
leaves `prev || null`. -/
def incMean (prev : ℚ) (cnt : ℤ) (sample : Option ℚ) : Option ℚ :=
  match sample with
  | some s => if s ≠ 0 then some ((prev * ((cnt : ℚ) - 1) + s) / (cnt : ℚ)) else truthyOrNone prev
  | none => truthyOrNone prev

/-- The statistics update applied to the bucket of one (period, zone)
key for one activity (lines incrementing the count, the totals, and the
four incremental means). -/
def updateStat (stat : HrZoneStat) (activity : ActivityRow) : HrZoneStat :=
  let cnt := stat.activity_count + 1
  { stat with
    activity_count := cnt
    total_duration := stat.total_duration + orZero activity.duration
    total_distance := stat.total_distance + orZero activity.distance
    avg_pace := incMean (orZero stat.avg_pace) cnt activity.average_pace
    avg_cadence := incMean (orZero stat.avg_cadence) cnt activity.average_cadence
    avg_stride_length := incMean (orZero stat.avg_stride_length) cnt activity.average_stride_length
    avg_heart_rate := incMean (orZero stat.avg_heart_rate) cnt activity.average_heart_rate }

/-- The empty bucket created when a (period, zone) key is first seen. -/
def initStat (period : String) (groupBy : GroupBy) (hrZone : ℤ) : HrZoneStat :=
  { period := period
    period_type := groupBy.toStr
    hr_zone := hrZone
    activity_count := 0
    total_duration := 0
    total_distance := 0
    avg_pace := none
    avg_cadence := none
    avg_stride_length := none
    avg_heart_rate := none }

/-- One iteration of the aggregation loop of `getHrZoneStatsRealtime`:
skip activities with a falsy average heart rate or an unclassifiable
zone, otherwise fold the activity into its (period, zone) bucket. -/
def stepActivity (maxHr : ℚ) (groupBy : GroupBy)
    (m : List (String × HrZoneStat)) (activity : ActivityRow) : List (String × HrZoneStat) :=
  match activity.average_heart_rate with
  | none => m
  | some hr =>
    if hr = 0 then m
    else
      let hrZone := rtGetHrZone maxHr hr
      if hrZone = 0 then m
      else
        let period := rtGetPeriod groupBy activity.start_time
        let key := period ++ "_" ++ toString hrZone
        let stat0 := (lookupKey m key).getD (initStat period groupBy hrZone)
        setKey m key (updateStat stat0 activity)

/-- The SQL row filter of `getHrZoneStatsRealtime`: non-null average
heart rate, and the optional date bounds compared against the stored
`start_time` string. -/
def rtRowFilter (params : AnalysisParams) (a : ActivityRow) : Bool :=
  a.average_heart_rate.isSome
  && (match params.startDate with
      | some s => if s ≠ "" then strLeB s a.start_time else true
      | none => true)
  && (match params.endDate with
      | some e => if e ≠ "" then strLeB a.start_time e else true
      | none => true)

/-- `getHrZoneStatsRealtime`: select activities with heart-rate data in
the requested range, aggregate them per (period, zone) in start-time
order, and sort the bucket values by (period, hr_zone). -/
def getHrZoneStatsRealtime (maxHr : ℚ) (activities : List ActivityRow)
    (params : AnalysisParams) : List HrZoneStat :=
  let rows := sortBy startTimeLe (activities.filter (rtRowFilter params))
  let m := rows.foldl (stepActivity maxHr params.groupBy) []
  sortBy hrRowLe (m.map Prod.snd)

/-- `mergeHrZoneStats`: concatenate the cached and realtime rollups and
re-sort by (period, hr_zone). -/
def mergeHrZoneStats (cached realtime : List HrZoneStat) : List HrZoneStat :=
  sortBy hrRowLe (cached ++ realtime)

/-- The freshness threshold: the ISO date of seven days before `now`
(`setDate(getDate() - 7)` followed by `toISOString().split("T")[0]`,
with a UTC host timezone). -/
def freshDateOf (now : ℤ) : String := isoDateOfMs (now - 7 * msPerDay)

/-- `getHrZoneStats`: route between the cache table, the realtime
aggregation, or the merged hybrid of both, based on the freshness
threshold. -/
def getHrZoneStats (maxHr : ℚ) (cache : List HrZoneStat) (activities : List ActivityRow)
    (now : ℤ) (params : AnalysisParams) : List HrZoneStat :=
  let freshDate := freshDateOf now
  if truthyStr params.endDate && strLtB (params.endDate.getD "") freshDate then
    getHrZoneStatsFromCache cache params
  else if truthyStr params.startDate && strGeB (params.startDate.getD "") freshDate then
    getHrZoneStatsRealtime maxHr activities params
  else
    mergeHrZoneStats
      (getHrZoneStatsFromCache cache { params with endDate := some freshDate })
      (getHrZoneStatsRealtime maxHr activities { params with startDate := some freshDate })

/-! ## app/lib/db.ts: VDOT trend -/

/-- A row of the `vdot_trend_cache` table, and equally a realtime trend
point (`VDOTTrendPoint` of app/lib/types.ts). -/
structure VDOTTrendPoint where
  period : String
  period_type : String
  avg_vdot : ℚ
  max_vdot : Option ℚ
  min_vdot : Option ℚ
  activity_count : ℤ
  total_distance : ℚ
  total_duration : ℚ
deriving DecidableEq, Repr

/-- The ORDER BY period comparator for trend points. -/
def vdotRowLe (a b : VDOTTrendPoint) : Bool :=
  strLeB a.period b.period

/-- `getVDOTTrendFromCache`: select cache rows in the period range,
ordered by period, then convert the stored kilometers to meters. -/
def getVDOTTrendFromCache (cache : List VDOTTrendPoint) (params : AnalysisParams) : List VDOTTrendPoint :=
  let rows := cache.filter (fun r =>
    r.period_type = params.groupBy.toStr
    && (match params.startDate with
        | some s => if s ≠ "" then strLeB (getPeriodFromDate s params.groupBy) r.period else true
        | none => true)
    && (match params.endDate with
        | some e => if e ≠ "" then strLeB r.period (getPeriodFromDate e params.groupBy) else true
        | none => true))
  (sortBy vdotRowLe rows).map (fun r => { r with total_distance := r.total_distance * 1000 })

/-- The SQL row filter of `getVDOTTrendRealtime`: non-null vdot value
and the optional date bounds. -/
def vdotRowFilter (params : AnalysisParams) (a : ActivityRow) : Bool :=
  a.vdot_value.isSome
  && (match params.startDate with
      | some s => if s ≠ "" then strLeB s a.start_time else true
      | none => true)
  && (match params.endDate with
      | some e => if e ≠ "" then strLeB a.start_time e else true
      | none => true)

/-- One iteration of the aggregation loop of `getVDOTTrendRealtime`. -/
def stepVdot (groupBy : GroupBy)
    (m : List (String × VDOTTrendPoint)) (activity : ActivityRow) : List (String × VDOTTrendPoint) :=
  let period := rtGetPeriod groupBy activity.start_time
  let t0 := (lookupKey m period).getD
    { period := period
      period_type := groupBy.toStr
      avg_vdot := 0
      max_vdot := none
      min_vdot := none
      activity_count := 0
      total_distance := 0
      total_duration := 0 }
  let cnt := t0.activity_count + 1
  let vdot := orZero activity.vdot_value
  setKey m period
    { t0 with
      activity_count := cnt
      total_distance := t0.total_distance + orZero activity.distance * 1000
      total_duration := t0.total_duration + orZero activity.duration
      avg_vdot := (t0.avg_vdot * ((cnt : ℚ) - 1) + vdot) / (cnt : ℚ)
      max_vdot := some (match t0.max_vdot with | none => vdot | some mx => max mx vdot)
      min_vdot := some (match t0.min_vdot with | none => vdot | some mn => min mn vdot) }

/-- `getVDOTTrendRealtime`: aggregate activities with a VDOT value per
period, in start-time order, and sort the points by period. -/
def getVDOTTrendRealtime (activities : List ActivityRow) (params : AnalysisParams) : List VDOTTrendPoint :=
  let rows := sortBy startTimeLe (activities.filter (vdotRowFilter params))
  let m := rows.foldl (stepVdot params.groupBy) []
  sortBy vdotRowLe (m.map Prod.snd)

/-- `mergeVDOTTrend`: concatenate and re-sort by period. -/
def mergeVDOTTrend (cached realtime : List VDOTTrendPoint) : List VDOTTrendPoint :=
  sortBy vdotRowLe (cached ++ realtime)

/-- `getVDOTTrend`: the same freshness routing as `getHrZoneStats`,
instantiated for the fitness trend. -/
def getVDOTTrend (cache : List VDOTTrendPoint) (activities : List ActivityRow)
    (now : ℤ) (params : AnalysisParams) : List VDOTTrendPoint :=
  let freshDate := freshDateOf now
  if truthyStr params.endDate && strLtB (params.endDate.getD "") freshDate then
    getVDOTTrendFromCache cache params
  else if truthyStr params.startDate && strGeB (params.startDate.getD "") freshDate then
    getVDOTTrendRealtime activities params
  else
    mergeVDOTTrend
      (getVDOTTrendFromCache cache { params with endDate := some freshDate })
      (getVDOTTrendRealtime activities { params with startDate := some freshDate })

/-! ## app/lib/db.ts: personal records (bestTimeForDistanceMeters) -/

/-- A lap split as read by the record extractor: nullable distance
(meters) and duration (seconds), coalesced to 0 by the walk. -/
structure LapSplit where
  distance : Option ℚ
  duration : Option ℚ
deriving DecidableEq, Repr

/-- The distance of a lap after the `lap.distance ?? 0` coalescing. -/
def lapDist (lap : LapSplit) : ℚ := lap.distance.getD 0

/-- The duration of a lap after the `lap.duration ?? 0` coalescing. -/
def lapDur (lap : LapSplit) : ℚ := lap.duration.getD 0

/-- The lap walk of `bestTimeForDistanceMeters`: accumulate distance and
time; on the first lap whose distance reaches the remaining target,
interpolate the fractional remainder and round. -/
def lapWalk (startTime : String) (targetMeters : ℚ) :
    List LapSplit → ℚ → ℚ → Option (ℤ × String)
  | [], _, _ => none
  | lap :: rest, cumDist, cumTime =>
    if targetMeters ≤ cumDist + lapDist lap then
      let remaining := targetMeters - cumDist
      let fraction := if 0 < lapDist lap then remaining / lapDist lap else 0
      some (jsRound (cumTime + lapDur lap * fraction), startTime)
    else
      lapWalk startTime targetMeters rest (cumDist + lapDist lap) (cumTime + lapDur lap)

/-- `bestTimeForDistanceMeters`: `none` when the activity is shorter
than the target; linear interpolation of the whole activity when it has
no laps; otherwise the lap walk.  The result pairs the rounded duration
in seconds with the achieved-at timestamp (always the activity start
time). -/
def bestTimeForDistanceMeters (startTime : String)
    (activityDistanceMeters activityDurationSeconds targetMeters : ℚ)
    (laps : List LapSplit) : Option (ℤ × String) :=
  if activityDistanceMeters < targetMeters then none
  else if laps = [] then
    some (jsRound (activityDurationSeconds * (targetMeters / activityDistanceMeters)), startTime)
  else
    lapWalk startTime targetMeters laps 0 0

/-! ## app/lib/db.ts: pace zone statistics -/

/-- One pace band boundary pair, as produced by
`getPaceZoneBoundsFromVdot` (that module is outside the analysed
sources; `getPaceZoneStats` only reads `paceMin` and `paceMax`, so the
band map is a parameter here). -/
structure PaceBounds where
  paceMin : ℚ
  paceMax : ℚ
deriving DecidableEq, Repr

/-- A joined lap row as selected by the `getPaceZoneStats` query:
lap metrics plus the parent start time used by the date filter. -/
structure LapRow where
  activity_id : ℤ
  lap_index : ℤ
  start_time : String
  distance : ℚ
  duration : ℚ
  average_pace : Option ℚ
  average_heart_rate : Option ℚ
  average_cadence : Option ℚ
  average_stride_length : Option ℚ
deriving DecidableEq, Repr

/-- The output band shape (`PaceZoneStat` of app/lib/types.ts). -/
structure PaceZoneStat where
  zone : ℤ
  target_pace_sec_per_km : ℚ
  pace_min_sec_per_km : ℚ
  pace_max_sec_per_km : ℚ
  activity_count : ℤ
  total_duration : ℚ
  total_distance : ℚ
  avg_pace : Option ℚ
  avg_cadence : Option ℚ
  avg_stride_length : Option ℚ
  avg_heart_rate : Option ℚ
deriving DecidableEq, Repr

/-- The per-zone accumulator of `getPaceZoneStats` (counts, sums and the
sample arrays later averaged). -/
structure PzAcc where
  activity_count : ℤ
  total_duration : ℚ
  total_distance : ℚ
  avg_pace : List ℚ
  avg_heart_rate : List ℚ
  avg_cadence : List ℚ
  avg_stride : List ℚ
deriving DecidableEq, Repr

/-- The empty per-zone accumulator. -/
def pzAccInit : PzAcc :=
  { activity_count := 0
    total_duration := 0
    total_distance := 0
    avg_pace := []
    avg_heart_rate := []
    avg_cadence := []
    avg_stride := [] }

/-- Whether a pace falls in the band of zone `z` (`b && pace >= b.paceMin
&& pace <= b.paceMax`). -/
def pzMatches (bounds : ℤ → Option PaceBounds) (pace : ℚ) (z : ℤ) : Bool :=
  match bounds z with
  | some b => b.paceMin ≤ pace && pace ≤ b.paceMax
  | none => false

/-- The first-match zone scan, z = 1 to 5 in order; 0 when no band
matches. -/
def pzClassify (bounds : ℤ → Option PaceBounds) (pace : ℚ) : ℤ :=
  if pzMatches bounds pace 1 then 1
  else if pzMatches bounds pace 2 then 2
  else if pzMatches bounds pace 3 then 3
  else if pzMatches bounds pace 4 then 4
  else if pzMatches bounds pace 5 then 5
  else 0

/-- Fold one matched lap into a zone accumulator (count, sums, sample
pushes; the optional metrics are pushed only when non-null). -/
def pzPush (acc : PzAcc) (lap : LapRow) (pace : ℚ) : PzAcc :=
  { acc with
    activity_count := acc.activity_count + 1
    total_duration := acc.total_duration + lap.duration
    total_distance := acc.total_distance + lap.distance
    avg_pace := acc.avg_pace ++ [pace]
    avg_heart_rate := acc.avg_heart_rate ++ (match lap.average_heart_rate with | some v => [v] | none => [])
    avg_cadence := acc.avg_cadence ++ (match lap.average_cadence with | some v => [v] | none => [])
    avg_stride := acc.avg_stride ++ (match lap.average_stride_length with | some v => [v] | none => []) }

/-- One iteration of the classification loop of `getPaceZoneStats`. -/
def pzStep (bounds : ℤ → Option PaceBounds)
    (zs : ℤ → PzAcc) (lap : LapRow) : ℤ → PzAcc :=
  let pace := lap.average_pace.getD 0
  let zone := pzClassify bounds pace
  if zone = 0 then zs
  else fun w => if w = zone then pzPush (zs zone) lap pace else zs w

/-- The SQL row filter of `getPaceZoneStats`: activity start time within
`[startDate, endDate + "T23:59:59.999Z"]` (string comparison), non-null
average pace, positive lap distance. -/
def pzRowFilter (startDate endDate : String) (lap : LapRow) : Bool :=
  strLeB startDate lap.start_time
  && strLeB lap.start_time (endDate ++ "T23:59:59.999Z")
  && lap.average_pace.isSome
  && 0 < lap.distance

/-- The average of a pushed sample array: sum over length when
non-empty, `null` otherwise. -/
def pzAverage (xs : List ℚ) : Option ℚ :=
  if 0 < xs.length then some (xs.sum / (xs.length : ℚ)) else none

/-- Render the accumulator of one zone as an output band. -/
def pzBand (bounds : ℤ → Option PaceBounds) (centers : ℤ → Option ℚ)
    (zs : ℤ → PzAcc) (zone : ℤ) : PaceZoneStat :=
  let s := zs zone
  { zone := zone
    target_pace_sec_per_km := (centers zone).getD 0
    pace_min_sec_per_km := ((bounds zone).map PaceBounds.paceMin).getD 0
    pace_max_sec_per_km := ((bounds zone).map PaceBounds.paceMax).getD 0
    activity_count := s.activity_count
    total_duration := s.total_duration
    total_distance := s.total_distance
    avg_pace := pzAverage s.avg_pace
    avg_cadence := pzAverage s.avg_cadence
    avg_stride_length := pzAverage s.avg_stride
    avg_heart_rate := pzAverage s.avg_heart_rate }

/-- `getPaceZoneStats`: empty for a non-positive fitness score;
otherwise classify every selected lap into the first matching band and
report the five bands for zones 1 through 5.  The band bounds and
centers are the imported `getPaceZoneBoundsFromVdot` and
`getPaceZoneCenterFromVdot` maps, taken as parameters. -/
def getPaceZoneStats (bounds : ℤ → Option PaceBounds) (centers : ℤ → Option ℚ)
    (laps : List LapRow) (vdot : ℚ) (startDate endDate : String) : List PaceZoneStat :=
  if vdot ≤ 0 then []
  else
    let rows := laps.filter (pzRowFilter startDate endDate)
    let zs := rows.foldl (pzStep bounds) (fun _ => pzAccInit)
    [1, 2, 3, 4, 5].map (pzBand bounds centers zs)

/-! ## Generic lemmas: insertion sort, association lists, string order -/

theorem insertLe_perm {α : Type} (le : α → α → Bool) (a : α) (l : List α) :
    (insertLe le a l).Perm (a :: l) := by
  induction l with
  | nil => simp [insertLe]
  | cons b bs ih =>
    simp only [insertLe]
    split
    · exact (ih.cons b).trans (List.Perm.swap a b bs)
    · exact List.Perm.refl _

theorem mem_insertLe {α : Type} (le : α → α → Bool) (a x : α) (l : List α) :
    x ∈ insertLe le a l ↔ x = a ∨ x ∈ l := by
  rw [(insertLe_perm le a l).mem_iff]
  simp

theorem foldl_insertLe_perm {α : Type} (le : α → α → Bool) :
    ∀ (l acc : List α), (List.foldl (fun acc x => insertLe le x acc) acc l).Perm (acc ++ l) := by
  intro l
  induction l with
  | nil => intro acc; simp
  | cons x xs ih =>
    intro acc
    simp only [List.foldl_cons]
    have h1 := ih (insertLe le x acc)
    have h2 : (insertLe le x acc ++ xs).Perm ((x :: acc) ++ xs) :=
      (insertLe_perm le x acc).append_right xs
    have h3 : ((x :: acc) ++ xs).Perm (acc ++ x :: xs) := by
      simpa using (List.perm_middle.symm : (x :: (acc ++ xs)).Perm (acc ++ x :: xs))
    exact (h1.trans h2).trans h3

theorem sortBy_perm {α : Type} (le : α → α → Bool) (l : List α) :
    (sortBy le l).Perm l := by
  simpa [sortBy] using foldl_insertLe_perm le l []

theorem mem_sortBy {α : Type} (le : α → α → Bool) (x : α) (l : List α) :
    x ∈ sortBy le l ↔ x ∈ l :=
  (sortBy_perm le l).mem_iff

theorem pairwise_insertLe {α : Type} (le : α → α → Bool)
    (htr : ∀ a b c, le a b = true → le b c = true → le a c = true)
    (hto : ∀ a b, le a b = true ∨ le b a = true)
    (a : α) (l : List α) (h : l.Pairwise (fun x y => le x y = true)) :
    (insertLe le a l).Pairwise (fun x y => le x y = true) := by
  induction l with
  | nil => simp [insertLe]
  | cons b bs ih =>
    rw [List.pairwise_cons] at h
    simp only [insertLe]
    split
    · rename_i hba
      refine List.Pairwise.cons ?_ (ih h.2)
      intro x hx
      rcases (mem_insertLe le a x bs).1 hx with rfl | hx
      · exact hba
      · exact h.1 x hx
    · rename_i hba
      have hab : le a b = true := by
        rcases hto a b with h1 | h1
        · exact h1
        · exact absurd h1 hba
      refine List.Pairwise.cons ?_ (List.Pairwise.cons h.1 h.2)
      intro x hx
      rcases List.mem_cons.1 hx with rfl | hx
      · exact hab
      · exact htr a b x hab (h.1 x hx)

theorem pairwise_sortBy {α : Type} (le : α → α → Bool)
    (htr : ∀ a b c, le a b = true → le b c = true → le a c = true)
    (hto : ∀ a b, le a b = true ∨ le b a = true)
    (l : List α) : (sortBy le l).Pairwise (fun x y => le x y = true) := by
  suffices h : ∀ (l acc : List α), acc.Pairwise (fun x y => le x y = true) →
      (List.foldl (fun acc x => insertLe le x acc) acc l).Pairwise (fun x y => le x y = true) by
    exact h l [] (by simp)
  intro l
  induction l with
  | nil => intro acc hacc; simpa using hacc
  | cons x xs ih =>
    intro acc hacc
    exact ih (insertLe le x acc) (pairwise_insertLe le htr hto x acc hacc)

theorem sortBy_append_singleton {α : Type} (le : α → α → Bool) (l : List α) (a : α) :
    sortBy le (l ++ [a]) = insertLe le a (sortBy le l) := by
  simp [sortBy, List.foldl_append]

theorem insertLe_split {α : Type} (le : α → α → Bool) (a : α) (l : List α) :
    ∃ l1 l2, insertLe le a l = l1 ++ a :: l2 ∧ l1 ++ l2 = l := by
  induction l with
  | nil => exact ⟨[], [], rfl, rfl⟩
  | cons b bs ih =>
    simp only [insertLe]
    split
    · obtain ⟨l1, l2, h1, h2⟩ := ih
      exact ⟨b :: l1, l2, by simp [h1], by simp [h2]⟩
    · exact ⟨[], b :: bs, rfl, rfl⟩

theorem foldl_skip_mid {α β : Type} (f : β → α → β) (a : α)
    (ha : ∀ m, f m a = m) (l1 l2 : List α) (m : β) :
    List.foldl f m (l1 ++ a :: l2) = List.foldl f m (l1 ++ l2) := by
  simp [List.foldl_append, List.foldl_cons, ha]

/-! String order lemmas. -/

theorem char_toNat_inj (a b : Char) (h : a.toNat = b.toNat) : a = b :=
  Char.ext (UInt32.toNat.inj h)

theorem charListLt_trans :
    ∀ a b c : List Char, charListLt a b = true → charListLt b c = true → charListLt a c = true := by
  intro a
  induction a with
  | nil =>
    intro b c h1 h2
    cases b with
    | nil => exact absurd h1 (by simp [charListLt])
    | cons y ys =>
      cases c with
      | nil => exact absurd h2 (by simp [charListLt])
      | cons z zs => simp [charListLt]
  | cons x xs ih =>
    intro b c h1 h2
    cases b with
    | nil => exact absurd h1 (by simp [charListLt])
    | cons y ys =>
      cases c with
      | nil => exact absurd h2 (by simp [charListLt])
      | cons z zs =>
        simp only [charListLt, Bool.or_eq_true, Bool.and_eq_true, decide_eq_true_eq] at h1 h2 ⊢
        rcases h1 with h1 | ⟨h1e, h1r⟩
        · rcases h2 with h2 | ⟨h2e, h2r⟩
          · exact Or.inl (Nat.lt_trans h1 h2)
          · exact Or.inl (h2e ▸ h1)
        · rcases h2 with h2 | ⟨h2e, h2r⟩
          · exact Or.inl (h1e ▸ h2)
          · exact Or.inr ⟨h1e.trans h2e, ih ys zs h1r h2r⟩

theorem charListLt_connex :
    ∀ a b : List Char, charListLt a b = false → charListLt b a = false → a = b := by
  intro a
  induction a with
  | nil =>
    intro b h1 _
    cases b with
    | nil => rfl
    | cons y ys => exact absurd h1 (by simp [charListLt])
  | cons x xs ih =>
    intro b h1 h2
    cases b with
    | nil => exact absurd h2 (by simp [charListLt])
    | cons y ys =>
      simp only [charListLt, Bool.or_eq_false_iff, Bool.and_eq_false_iff,
        decide_eq_false_iff_not, decide_eq_true_eq] at h1 h2
      have hxy : x.toNat = y.toNat := by omega
      have hx : x = y := char_toNat_inj x y hxy
      rcases h1.2 with he | hr1
      · exact absurd hxy he
      · rcases h2.2 with he | hr2
        · exact absurd hxy.symm he
        · exact by rw [hx, ih ys hr1 hr2]

theorem charListLt_irrefl : ∀ a : List Char, charListLt a a = false := by
  intro a
  induction a with
  | nil => rfl
  | cons x xs ih => simp [charListLt, ih]

theorem strLtB_trans (a b c : String) (h1 : strLtB a b = true) (h2 : strLtB b c = true) :
    strLtB a c = true :=
  charListLt_trans a.data b.data c.data h1 h2

theorem strLtB_connex (a b : String) (h1 : strLtB a b = false) (h2 : strLtB b a = false) :
    a = b :=
  String.ext (charListLt_connex a.data b.data h1 h2)

theorem strLtB_irrefl (a : String) : strLtB a a = false :=
  charListLt_irrefl a.data

theorem strLtB_asymm (a b : String) (h : strLtB a b = true) : strLtB b a = false := by
  by_contra hc
  have h2 : strLtB b a = true := by
    cases hba : strLtB b a with
    | false => exact absurd hba hc
    | true => rfl
  have := strLtB_trans a b a h h2
  rw [strLtB_irrefl] at this
  exact Bool.false_ne_true this

theorem strLeB_total (a b : String) : strLeB a b = true ∨ strLeB b a = true := by
  unfold strLeB
  cases hab : strLtB a b with
  | false => right; simp [hab]
  | true => left; simp [strLtB_asymm a b hab]

theorem strLeB_trans (a b c : String) (h1 : strLeB a b = true) (h2 : strLeB b c = true) :
    strLeB a c = true := by
  unfold strLeB at h1 h2 ⊢
  simp only [Bool.not_eq_true'] at h1 h2 ⊢
  cases hca : strLtB c a with
  | false => rfl
  | true =>
    exfalso
    cases hbc : strLtB b c with
    | true => exact Bool.false_ne_true (h1 ▸ strLtB_trans b c a hbc hca)
    | false =>
      have hbe : b = c := strLtB_connex b c hbc h2
      exact Bool.false_ne_true (h1 ▸ (hbe.symm ▸ hca))

theorem hrRowLe_total (a b : HrZoneStat) : hrRowLe a b = true ∨ hrRowLe b a = true := by
  unfold hrRowLe
  cases hab : strLtB a.period b.period with
  | true => left; simp [hab]
  | false =>
    cases hba : strLtB b.period a.period with
    | true => right; simp [hba]
    | false =>
      have he : a.period = b.period := strLtB_connex _ _ hab hba
      rcases Int.le_total a.hr_zone b.hr_zone with h | h
      · left; simp [he, h]
      · right; simp [he.symm, h]

theorem hrRowLe_trans (a b c : HrZoneStat)
    (h1 : hrRowLe a b = true) (h2 : hrRowLe b c = true) : hrRowLe a c = true := by
  unfold hrRowLe at h1 h2 ⊢
  simp only [Bool.or_eq_true, Bool.and_eq_true, decide_eq_true_eq] at h1 h2 ⊢
  rcases h1 with h1 | ⟨h1e, h1z⟩
  · rcases h2 with h2 | ⟨h2e, h2z⟩
    · exact Or.inl (strLtB_trans _ _ _ h1 h2)
    · exact Or.inl (h2e ▸ h1)
  · rcases h2 with h2 | ⟨h2e, h2z⟩
    · exact Or.inl (h1e ▸ h2)
    · exact Or.inr ⟨h1e.trans h2e, le_trans h1z h2z⟩

theorem vdotRowLe_total (a b : VDOTTrendPoint) : vdotRowLe a b = true ∨ vdotRowLe b a = true :=
  strLeB_total a.period b.period

theorem vdotRowLe_trans (a b c : VDOTTrendPoint)
    (h1 : vdotRowLe a b = true) (h2 : vdotRowLe b c = true) : vdotRowLe a c = true :=
  strLeB_trans _ _ _ h1 h2

/-! ## Claim C2 -/

/-- C2: `estimateFitness` (`calculateVdotFromPace`) returns null exactly
when the input is invalid or the sanity guards fire: for every heart
rate it is null iff the duration or distance is non-positive, or the
computed fraction of VO2max is non-positive or above 1, or the final
(pre-rounding) score falls outside [20, 100]; in all other cases it
returns a value (the embedding is a total function, so it never
throws).  The intermediate velocity guard of the source can never fire
on its own, which the iff also certifies. -/
theorem C2_estimateFitness_null_iff (exp : ℚ → ℚ) (c : VDOTCalculator)
    (distanceMeters durationSeconds : ℚ) (avgHr : Option ℚ) :
    calculateVdotFromPace exp c distanceMeters durationSeconds avgHr = none ↔
      (durationSeconds ≤ 0 ∨ distanceMeters ≤ 0
        ∨ percentVo2maxOf exp durationSeconds ≤ 0
        ∨ 1 < percentVo2maxOf exp durationSeconds
        ∨ rawVdotOf exp c distanceMeters durationSeconds avgHr < 20
        ∨ 100 < rawVdotOf exp c distanceMeters durationSeconds avgHr) := by
  simp only [calculateVdotFromPace]
  split_ifs with h1 h2 h3 h4
  · exact iff_of_true rfl (by tauto)
  · exfalso
    push_neg at h1
    have hd60 : (0 : ℚ) < durationSeconds / 60 := by linarith [h1.1]
    exact absurd h2 (not_le.mpr (div_pos h1.2 hd60))
  · exact iff_of_true rfl (by tauto)
  · exact iff_of_true rfl (by tauto)
  · refine iff_of_false (by simp) ?_
    push_neg at h1 h3 h4
    rintro (h | h | h | h | h | h) <;> linarith [h1.1, h1.2, h3.1, h3.2, h4.1, h4.2]

/-! ## Claim C3 -/

/-- The zone factor exactly as the spec words it: zone 1 scores 0.97,
zone 2 scores 0.99, zones 3 to 5 score at parity. -/
def specZoneFactor (z : ℤ) : ℚ :=
  if z = 1 then 0.97 else if z = 2 then 0.99 else 1

/-- The code lookup `zoneMultipliers[hrZone] || 1.0` agrees with the
spec factor table on every zone value. -/
theorem zoneMultiplier_eq_spec (z : ℤ) : zoneMultiplier z = specZoneFactor z := by
  unfold zoneMultiplier specZoneFactor
  split_ifs <;> norm_num

/-- The ingest-time classifier is the realtime classifier applied to the
configured max heart rate. -/
theorem getHrZone_eq_rt (c : VDOTCalculator) (avgHr : ℚ) :
    c.getHrZone avgHr = rtGetHrZone c.maxHr avgHr := rfl

/-- The Daniels computation exactly as the spec words it: velocity in
meters per minute, the VO2 and fraction-of-VO2max polynomials, base
score, and the zone-dependent factor applied when a positive average
heart rate is supplied. -/
def danielsSpecScore (exp : ℚ → ℚ) (maxHr distanceMeters durationSeconds : ℚ)
    (avgHr : Option ℚ) : ℚ :=
  let v := distanceMeters / (durationSeconds / 60)
  let t := durationSeconds / 60
  let vo2 := -4.60 + 0.182258 * v + 0.000104 * v ^ 2
  let pct := 0.8 + 0.1894393 * exp (-0.012778 * t) + 0.2989558 * exp (-0.1932605 * t)
  let base := vo2 / pct
  match avgHr with
  | some h => if 0 < h then base * specZoneFactor (rtGetHrZone maxHr h) else base
  | none => base

/-- The pre-rounding value computed by the source equals the spec
formula. -/
theorem rawVdot_eq_spec (exp : ℚ → ℚ) (c : VDOTCalculator)
    (distanceMeters durationSeconds : ℚ) (avgHr : Option ℚ) :
    rawVdotOf exp c distanceMeters durationSeconds avgHr =
      danielsSpecScore exp c.maxHr distanceMeters durationSeconds avgHr := by
  unfold rawVdotOf danielsSpecScore vo2Of percentVo2maxOf
  cases avgHr with
  | none => rfl
  | some h =>
    simp only
    have hcond : (h ≠ 0 ∧ 0 < h) ↔ 0 < h := by
      constructor
      · exact fun hh => hh.2
      · exact fun hh => ⟨ne_of_gt hh, hh⟩
    rw [getHrZone_eq_rt, zoneMultiplier_eq_spec]
    by_cases hpos : 0 < h
    · rw [if_pos (hcond.mpr hpos), if_pos hpos]
    · rw [if_neg (fun hh => hpos (hcond.mp hh)), if_neg hpos]

/-- C3: for every valid input (positive distance and duration) on which
the estimator returns a value, the value is the Daniels computation of
the spec, with the zone-dependent multiplier, rounded to one decimal
place with JavaScript rounding. -/
theorem C3_estimateFitness_daniels (exp : ℚ → ℚ) (c : VDOTCalculator)
    (distanceMeters durationSeconds : ℚ) (avgHr : Option ℚ) (v : ℚ)
    (hd : 0 < distanceMeters) (ht : 0 < durationSeconds)
    (hres : calculateVdotFromPace exp c distanceMeters durationSeconds avgHr = some v) :
    v = (jsRound (danielsSpecScore exp c.maxHr distanceMeters durationSeconds avgHr * 10) : ℚ) / 10 := by
  rw [calculateVdotFromPace] at hres
  rw [if_neg (by push_neg; exact ⟨ht, hd⟩)] at hres
  simp only at hres
  split_ifs at hres
  rw [← rawVdot_eq_spec exp c distanceMeters durationSeconds avgHr]
  exact (Option.some.injEq _ _ ▸ hres).symm

/-- Witness for C3 at a concrete input: 3000 meters in 900 seconds with
no heart rate, and the exponential stubbed to the constant 0, give the
score 45. -/
theorem C3_estimateFitness_daniels_witness :
    (45 : ℚ) = (jsRound (danielsSpecScore (fun _ => 0) (190 : ℚ) 3000 900 none * 10) : ℚ) / 10 := by
  have h := C3_estimateFitness_daniels (fun _ => 0) ⟨190, 55⟩ 3000 900 none 45
    (by norm_num) (by norm_num)
    (by norm_num [calculateVdotFromPace, percentVo2maxOf, rawVdotOf, vo2Of, jsRound])
  exact h

/-! ## Claim C4 -/

/-- Monotonicity of the realtime classifier in the heart rate, for a
positive max heart rate. -/
theorem rtGetHrZone_mono (maxHr a b : ℚ) (hm : 0 < maxHr) (h : a ≤ b) :
    rtGetHrZone maxHr a ≤ rtGetHrZone maxHr b := by
  simp only [rtGetHrZone]
  have hp : a / maxHr * 100 ≤ b / maxHr * 100 :=
    mul_le_mul_of_nonneg_right ((div_le_div_iff_of_pos_right hm).mpr h) (by norm_num)
  split_ifs <;> linarith

/-- C4: the zone classifier returns 0 exactly on non-positive heart
rates; the ingest-time and realtime classifiers agree on every input;
for a positive max heart rate the classifier is monotone in the heart
rate; and for positive heart rates it is the four-breakpoint step
function of the ratio to max heart rate, with each boundary belonging to
the upper zone. -/
theorem C4_classifyHeartRateZone (maxHr restingHr avgHr avgHr2 : ℚ)
    (hm : 0 < maxHr) (hle : avgHr ≤ avgHr2) :
    (rtGetHrZone maxHr avgHr = 0 ↔ avgHr ≤ 0)
    ∧ VDOTCalculator.getHrZone ⟨maxHr, restingHr⟩ avgHr = rtGetHrZone maxHr avgHr
    ∧ rtGetHrZone maxHr avgHr ≤ rtGetHrZone maxHr avgHr2
    ∧ (0 < avgHr →
        ((rtGetHrZone maxHr avgHr = 1 ↔ avgHr / maxHr < 70 / 100)
        ∧ (rtGetHrZone maxHr avgHr = 2 ↔ 70 / 100 ≤ avgHr / maxHr ∧ avgHr / maxHr < 80 / 100)
        ∧ (rtGetHrZone maxHr avgHr = 3 ↔ 80 / 100 ≤ avgHr / maxHr ∧ avgHr / maxHr < 87 / 100)
        ∧ (rtGetHrZone maxHr avgHr = 4 ↔ 87 / 100 ≤ avgHr / maxHr ∧ avgHr / maxHr < 93 / 100)
        ∧ (rtGetHrZone maxHr avgHr = 5 ↔ 93 / 100 ≤ avgHr / maxHr))) := by
  refine ⟨?_, rfl, rtGetHrZone_mono maxHr avgHr avgHr2 hm hle, ?_⟩
  · simp only [rtGetHrZone]
    split_ifs with h1 h2 h3 h4 h5
    · exact iff_of_true rfl h1
    · exact iff_of_false (by decide) h1
    · exact iff_of_false (by decide) h1
    · exact iff_of_false (by decide) h1
    · exact iff_of_false (by decide) h1
    · exact iff_of_false (by decide) h1
  · intro hpos
    have hz : rtGetHrZone maxHr avgHr =
        (if avgHr / maxHr * 100 < 70 then 1
         else if avgHr / maxHr * 100 < 80 then 2
         else if avgHr / maxHr * 100 < 87 then 3
         else if avgHr / maxHr * 100 < 93 then 4
         else 5) := by
      simp only [rtGetHrZone]
      rw [if_neg (not_le.mpr hpos)]
    rcases lt_or_le (avgHr / maxHr * 100) 70 with h70 | h70
    · rw [hz, if_pos h70]
      exact ⟨iff_of_true rfl (by linarith),
        iff_of_false (by decide) (by rintro ⟨h, _⟩; linarith),
        iff_of_false (by decide) (by rintro ⟨h, _⟩; linarith),
        iff_of_false (by decide) (by rintro ⟨h, _⟩; linarith),
        iff_of_false (by decide) (by intro h; linarith)⟩
    · rcases lt_or_le (avgHr / maxHr * 100) 80 with h80 | h80
      · rw [hz, if_neg (not_lt.mpr h70), if_pos h80]
        exact ⟨iff_of_false (by decide) (by intro h; linarith),
          iff_of_true rfl ⟨by linarith, by linarith⟩,
          iff_of_false (by decide) (by rintro ⟨h, _⟩; linarith),
          iff_of_false (by decide) (by rintro ⟨h, _⟩; linarith),
          iff_of_false (by decide) (by intro h; linarith)⟩
      · rcases lt_or_le (avgHr / maxHr * 100) 87 with h87 | h87
        · rw [hz, if_neg (not_lt.mpr h70), if_neg (not_lt.mpr h80), if_pos h87]
          exact ⟨iff_of_false (by decide) (by intro h; linarith),
            iff_of_false (by decide) (by rintro ⟨_, h⟩; linarith),
            iff_of_true rfl ⟨by linarith, by linarith⟩,
            iff_of_false (by decide) (by rintro ⟨h, _⟩; linarith),
            iff_of_false (by decide) (by intro h; linarith)⟩
        · rcases lt_or_le (avgHr / maxHr * 100) 93 with h93 | h93
          · rw [hz, if_neg (not_lt.mpr h70), if_neg (not_lt.mpr h80),
              if_neg (not_lt.mpr h87), if_pos h93]
            exact ⟨iff_of_false (by decide) (by intro h; linarith),
              iff_of_false (by decide) (by rintro ⟨_, h⟩; linarith),
              iff_of_false (by decide) (by rintro ⟨_, h⟩; linarith),
              iff_of_true rfl ⟨by linarith, by linarith⟩,
              iff_of_false (by decide) (by intro h; linarith)⟩
          · rw [hz, if_neg (not_lt.mpr h70), if_neg (not_lt.mpr h80),
              if_neg (not_lt.mpr h87), if_neg (not_lt.mpr h93)]
            exact ⟨iff_of_false (by decide) (by intro h; linarith),
              iff_of_false (by decide) (by rintro ⟨_, h⟩; linarith),
              iff_of_false (by decide) (by rintro ⟨_, h⟩; linarith),
              iff_of_false (by decide) (by rintro ⟨_, h⟩; linarith),
              iff_of_true rfl (by linarith)⟩

/-- Witness for C4 at max heart rate 190 and heart rates 140 and 150. -/
theorem C4_classifyHeartRateZone_witness :
    rtGetHrZone 190 140 ≤ rtGetHrZone 190 150 :=
  (C4_classifyHeartRateZone 190 55 140 150 (by norm_num) (by norm_num)).2.2.1

/-! ## Claims C7 and C9 -/

/-- Sum of the coalesced lap distances of a list of laps. -/
def sumDist (laps : List LapSplit) : ℚ := (laps.map lapDist).sum

/-- Sum of the coalesced lap durations of a list of laps. -/
def sumDur (laps : List LapSplit) : ℚ := (laps.map lapDur).sum

/-- The lap walk returns nothing when the running distance never reaches
the target: at every index, the distance accumulated before that lap
plus that lap does not reach the target. -/
theorem lapWalk_none (st : String) (target : ℚ) :
    ∀ (laps : List LapSplit) (cumD cumT : ℚ),
      (∀ i (hi : i < laps.length),
        cumD + sumDist (laps.take i) + lapDist (laps.get ⟨i, hi⟩) < target) →
      lapWalk st target laps cumD cumT = none := by
  intro laps
  induction laps with
  | nil => intro cumD cumT _; rfl
  | cons lap rest ih =>
    intro cumD cumT h
    have h0 := h 0 (by simp)
    simp only [List.take_zero, sumDist, List.map_nil, List.sum_nil, add_zero, List.get] at h0
    simp only [lapWalk, if_neg (not_le.mpr h0)]
    refine ih (cumD + lapDist lap) (cumT + lapDur lap) ?_
    intro i hi
    have hs := h (i + 1) (by simpa using Nat.succ_lt_succ hi)
    simpa [sumDist, List.take_succ_cons, add_assoc] using hs

/-- The lap walk stops at the first lap whose distance reaches the
remaining target and interpolates the fractional remainder of that
lap. -/
theorem lapWalk_first_hit (st : String) (target : ℚ) :
    ∀ (pre : List LapSplit) (lap : LapSplit) (post : List LapSplit) (cumD cumT : ℚ),
      (∀ i (hi : i < pre.length),
        cumD + sumDist (pre.take i) + lapDist (pre.get ⟨i, hi⟩) < target) →
      target ≤ cumD + sumDist pre + lapDist lap →
      lapWalk st target (pre ++ lap :: post) cumD cumT =
        some (jsRound (cumT + sumDur pre + lapDur lap *
          (if 0 < lapDist lap then (target - (cumD + sumDist pre)) / lapDist lap else 0)), st) := by
  intro pre
  induction pre with
  | nil =>
    intro lap post cumD cumT _ hhit
    simp only [sumDist, sumDur, List.map_nil, List.sum_nil, add_zero] at hhit ⊢
    simp [List.nil_append, lapWalk, if_pos hhit]
  | cons p ps ih =>
    intro lap post cumD cumT hmiss hhit
    have h0 := hmiss 0 (by simp)
    simp only [List.take_zero, sumDist, List.map_nil, List.sum_nil, add_zero, List.get] at h0
    have hsum : cumD + sumDist (p :: ps) + lapDist lap =
        cumD + lapDist p + sumDist ps + lapDist lap := by
      simp [sumDist]; ring
    have hstep : lapWalk st target ((p :: ps) ++ lap :: post) cumD cumT =
        lapWalk st target (ps ++ lap :: post) (cumD + lapDist p) (cumT + lapDur p) := by
      simp [List.cons_append, lapWalk, if_neg (not_le.mpr h0)]
    have hrec := ih lap post (cumD + lapDist p) (cumT + lapDur p)
      (by
        intro i hi
        have hs := hmiss (i + 1) (by simpa using Nat.succ_lt_succ hi)
        simpa [sumDist, List.take_succ_cons, add_assoc] using hs)
      (by linarith [hhit, hsum])
    rw [hstep, hrec]
    have he1 : cumT + lapDur p + sumDur ps = cumT + sumDur (p :: ps) := by
      simp [sumDur]; ring
    have he2 : cumD + lapDist p + sumDist ps = cumD + sumDist (p :: ps) := by
      simp [sumDist]; ring
    rw [he1, he2]

/-- C7: the record extractor returns nothing when the activity distance
is strictly below the target; with no laps it linearly interpolates the
whole activity and stamps the activity start time; with laps it walks
them in order, stopping at the first lap where the cumulative distance
reaches the target, adding the interpolated fraction of that lap to the
time of the prior full laps; in particular ten equal 1000 m / 300 s laps
give 1500 s for 5000 m, and a single 1000 m / 300 s lap gives 150 s for
500 m. -/
theorem C7_bestTimeForDistance :
    (∀ (st : String) (total dur target : ℚ) (laps : List LapSplit),
      total < target → bestTimeForDistanceMeters st total dur target laps = none)
    ∧ (∀ (st : String) (total dur target : ℚ),
      ¬ total < target →
      bestTimeForDistanceMeters st total dur target [] =
        some (jsRound (dur * (target / total)), st))
    ∧ (∀ (st : String) (total dur target : ℚ)
        (pre : List LapSplit) (lap : LapSplit) (post : List LapSplit),
      ¬ total < target →
      (∀ i (hi : i < pre.length),
        sumDist (pre.take i) + lapDist (pre.get ⟨i, hi⟩) < target) →
      target ≤ sumDist pre + lapDist lap →
      bestTimeForDistanceMeters st total dur target (pre ++ lap :: post) =
        some (jsRound (sumDur pre + lapDur lap *
          (if 0 < lapDist lap then (target - sumDist pre) / lapDist lap else 0)), st))
    ∧ bestTimeForDistanceMeters "2024-01-01T08:00:00Z" 10000 3000 5000
        (List.replicate 10 ⟨some 1000, some 300⟩) = some (1500, "2024-01-01T08:00:00Z")
    ∧ bestTimeForDistanceMeters "2024-01-01T08:00:00Z" 1000 300 500
        [⟨some 1000, some 300⟩] = some (150, "2024-01-01T08:00:00Z") := by
  refine ⟨?_, ?_, ?_, ?_, ?_⟩
  · intro st total dur target laps h
    simp [bestTimeForDistanceMeters, h]
  · intro st total dur target h
    simp [bestTimeForDistanceMeters, h]
  · intro st total dur target pre lap post h hmiss hhit
    have hne : pre ++ lap :: post ≠ [] := by simp
    simp only [bestTimeForDistanceMeters, if_neg h, if_neg hne]
    have := lapWalk_first_hit st target pre lap post 0 0
      (by intro i hi; simpa using hmiss i hi)
      (by simpa using hhit)
    simpa using this
  · norm_num [bestTimeForDistanceMeters, List.replicate, lapWalk, lapDist, lapDur, jsRound]
  · norm_num [bestTimeForDistanceMeters, lapWalk, lapDist, lapDur, jsRound]

/-- Witness for C7, discharging the hypotheses of the first conjunct at
a concrete input. -/
theorem C7_bestTimeForDistance_witness :
    bestTimeForDistanceMeters "2024-02-02" 400 100 500 [] = none :=
  C7_bestTimeForDistance.1 "2024-02-02" 400 100 500 [] (by norm_num)

/-- For laps with non-negative distances, every running prefix stays
below the total sum. -/
theorem sumDist_prefix_le (laps : List LapSplit)
    (hnn : ∀ l ∈ laps, 0 ≤ lapDist l) :
    ∀ i (hi : i < laps.length),
      sumDist (laps.take i) + lapDist (laps.get ⟨i, hi⟩) ≤ sumDist laps := by
  induction laps with
  | nil => intro i hi; simp at hi
  | cons lap rest ih =>
    intro i hi
    cases i with
    | zero =>
      simp only [List.take_zero, sumDist, List.map_nil, List.sum_nil, zero_add, List.get,
        List.map_cons, List.sum_cons]
      have hrest : 0 ≤ (rest.map lapDist).sum := by
        apply List.sum_nonneg
        intro x hx
        obtain ⟨l, hl, rfl⟩ := List.mem_map.1 hx
        exact hnn l (List.mem_cons_of_mem _ hl)
      linarith
    | succ j =>
      have hj : j < rest.length := by simpa using hi
      have := ih (fun l hl => hnn l (List.mem_cons_of_mem _ hl)) j hj
      simp only [List.take_succ_cons, sumDist, List.map_cons, List.sum_cons, List.get] at this ⊢
      linarith [this, hnn lap (List.mem_cons_self _ _)]

/-- C9: when an activity has at least one lap split with non-negative
lap distances whose total never reaches the target, the extractor
returns nothing even though the recorded activity distance reaches the
target: the no-lap interpolation fallback is not applied once laps
exist. -/
theorem C9_laps_undercover_null (st : String) (total dur target : ℚ)
    (laps : List LapSplit) (hne : laps ≠ [])
    (htot : target ≤ total)
    (hnn : ∀ l ∈ laps, 0 ≤ lapDist l)
    (hsum : sumDist laps < target) :
    bestTimeForDistanceMeters st total dur target laps = none := by
  simp only [bestTimeForDistanceMeters, if_neg (not_lt.mpr htot), if_neg hne]
  apply lapWalk_none
  intro i hi
  have := sumDist_prefix_le laps hnn i hi
  simp only [zero_add]
  linarith

/-- Witness for C9: a 10000 m activity whose single recorded lap covers
only 400 m yields no 500 m record. -/
theorem C9_laps_undercover_null_witness :
    bestTimeForDistanceMeters "2024-02-02" 10000 3000 500 [⟨some 400, some 120⟩] = none := by
  have h := C9_laps_undercover_null "2024-02-02" 10000 3000 500 [⟨some 400, some 120⟩]
    (by simp) (by norm_num)
    (by intro l hl; simp at hl; subst hl; norm_num [lapDist])
    (by norm_num [sumDist, lapDist])
  exact h

/-! ## Claim C5 -/

/-- The week key exactly as the spec words it: `YYYY-Www` with week
number `ceil((daysSinceJan1 + Jan1Weekday + 1) / 7)`, where
`daysSinceJan1` is the whole number of UTC days elapsed since January 1
of the timestamp's UTC year and `Jan1Weekday` is the weekday number of
that January 1 (0 = Sunday). -/
def weekKeySpec (ms : ℤ) : String :=
  let y := getUTCFullYear ms
  let daysSinceJan1 := floorDiv ms msPerDay - daysFromCivil y 1 1
  let jan1Weekday := (daysFromCivil y 1 1 + 4) % 7
  toString y ++ "-W" ++ pad2 (ceilDiv (daysSinceJan1 + jan1Weekday + 1) 7)

/-- C5 (amended): for every timestamp the cached-path period keyer
produces exactly the spec formula with whole elapsed days; the realtime
keyer, which divides the raw millisecond difference without flooring,
agrees with it on UTC-midnight timestamps (but not in general, see the
counterexample). -/
theorem C5_weekKey_amended :
    (∀ ms : ℤ, periodOfMs ms GroupBy.week = weekKeySpec ms)
    ∧ (∀ ms : ℤ, ms % msPerDay = 0 →
        rtPeriodOfMs ms GroupBy.week = periodOfMs ms GroupBy.week) := by
  constructor
  · intro ms
    simp only [periodOfMs, weekKeySpec, jan1Ms, getUTCDayOfWeek]
    have h1 : floorDiv (ms - daysFromCivil (getUTCFullYear ms) 1 1 * msPerDay) msPerDay =
        floorDiv ms msPerDay - daysFromCivil (getUTCFullYear ms) 1 1 := by
      unfold floorDiv msPerDay
      omega
    have h2 : floorDiv (daysFromCivil (getUTCFullYear ms) 1 1 * msPerDay) msPerDay =
        daysFromCivil (getUTCFullYear ms) 1 1 := by
      unfold floorDiv msPerDay
      omega
    rw [h1, h2]
  · intro ms hmid
    obtain ⟨q, hq⟩ : (msPerDay : ℤ) ∣ ms := Int.dvd_of_emod_eq_zero hmid
    subst hq
    simp only [rtPeriodOfMs, periodOfMs, jan1Ms, getUTCDayOfWeek]
    have h2 : floorDiv (daysFromCivil (getUTCFullYear (msPerDay * q)) 1 1 * msPerDay) msPerDay =
        daysFromCivil (getUTCFullYear (msPerDay * q)) 1 1 := by
      unfold floorDiv msPerDay
      omega
    rw [h2]
    have h3 : ∀ k w : ℤ,
        ceilDiv (msPerDay * q - k * msPerDay + (w + 1) * msPerDay) (7 * msPerDay) =
        ceilDiv (floorDiv (msPerDay * q - k * msPerDay) msPerDay + w + 1) 7 := by
      intro k w
      unfold ceilDiv floorDiv msPerDay
      omega
    rw [h3]

/-- Counterexample for C5: at 2023-01-07T12:00:00Z (not UTC midnight)
the cached path yields week 1 while the realtime path yields week 2, so
the two paths do not produce the same key for every timestamp. -/
theorem C5_weekKey_counterexample :
    periodOfMs (parseDateMs "2023-01-07T12:00:00Z") GroupBy.week = "2023-W01"
    ∧ rtPeriodOfMs (parseDateMs "2023-01-07T12:00:00Z") GroupBy.week = "2023-W02"
    ∧ rtPeriodOfMs (parseDateMs "2023-01-07T12:00:00Z") GroupBy.week ≠
        periodOfMs (parseDateMs "2023-01-07T12:00:00Z") GroupBy.week := by
  refine ⟨by decide, by decide, by decide⟩

/-- Witness for C5, discharging the midnight hypothesis at a concrete
timestamp. -/
theorem C5_weekKey_amended_witness :
    rtPeriodOfMs (parseDateMs "2024-03-08") GroupBy.week =
      periodOfMs (parseDateMs "2024-03-08") GroupBy.week :=
  C5_weekKey_amended.2 (parseDateMs "2024-03-08") (by decide)

/-! ## Claim C8 -/

/-- The plain arithmetic mean as the spec words it: sum of the samples
divided by the number of samples, absent when there are none. -/
def plainMean (xs : List ℚ) : Option ℚ :=
  if xs = [] then none else some (xs.sum / (xs.length : ℚ))

/-- The code average (guarded by a positive length) is the plain mean. -/
theorem pzAverage_eq_plainMean (xs : List ℚ) : pzAverage xs = plainMean xs := by
  unfold pzAverage plainMean
  cases xs <;> simp

/-- Pointwise description of one classification step at a fixed non-zero
zone slot. -/
theorem pzStep_apply (bounds : ℤ → Option PaceBounds) (zs : ℤ → PzAcc) (l : LapRow)
    (z : ℤ) (hz : z ≠ 0) :
    pzStep bounds zs l z =
      if pzClassify bounds (l.average_pace.getD 0) = z
      then pzPush (zs z) l (l.average_pace.getD 0) else zs z := by
  by_cases h0 : pzClassify bounds (l.average_pace.getD 0) = 0
  · have hne : ¬ pzClassify bounds (l.average_pace.getD 0) = z :=
      fun hc => hz (hc.symm.trans h0)
    simp only [pzStep, h0, hne, if_true, if_pos rfl]
    rw [if_neg (fun h => hz h.symm)]
  · by_cases hcz : pzClassify bounds (l.average_pace.getD 0) = z
    · simp only [pzStep, hcz, if_pos rfl]
      simp [hz]
    · have hzc : ¬ z = pzClassify bounds (l.average_pace.getD 0) :=
        fun h => hcz h.symm
      simp [pzStep, h0, hcz, hzc]

/-- Folding the classification loop and projecting one non-zero zone
slot is folding the per-lap push over exactly the laps classified into
that zone. -/
theorem pzFold_apply (bounds : ℤ → Option PaceBounds) :
    ∀ (rows : List LapRow) (zs : ℤ → PzAcc) (z : ℤ), z ≠ 0 →
      (rows.foldl (pzStep bounds) zs) z =
        (rows.filter (fun l => pzClassify bounds (l.average_pace.getD 0) = z)).foldl
          (fun acc l => pzPush acc l (l.average_pace.getD 0)) (zs z) := by
  intro rows
  induction rows with
  | nil => intro zs z hz; rfl
  | cons l rest ih =>
    intro zs z hz
    simp only [List.foldl_cons, List.filter_cons]
    by_cases hcl : pzClassify bounds (l.average_pace.getD 0) = z
    · rw [if_pos (by simpa using hcl)]
      simp only [List.foldl_cons]
      rw [ih _ z hz, pzStep_apply bounds zs l z hz, if_pos hcl]
    · rw [if_neg (by simpa using hcl)]
      rw [ih _ z hz, pzStep_apply bounds zs l z hz, if_neg hcl]

/-- The accumulator reached by pushing a list of matched laps. -/
def pzFoldAcc (matched : List LapRow) (acc0 : PzAcc) : PzAcc :=
  matched.foldl (fun acc l => pzPush acc l (l.average_pace.getD 0)) acc0

/-- Field-by-field description of the push fold: the count grows by the
number of matched laps, the totals by their sums, and the sample arrays
by the pace map and the non-null metric projections. -/
theorem pzFoldAcc_fields :
    ∀ (matched : List LapRow) (acc0 : PzAcc),
      (pzFoldAcc matched acc0).activity_count = acc0.activity_count + matched.length
      ∧ (pzFoldAcc matched acc0).total_duration = acc0.total_duration + (matched.map LapRow.duration).sum
      ∧ (pzFoldAcc matched acc0).total_distance = acc0.total_distance + (matched.map LapRow.distance).sum
      ∧ (pzFoldAcc matched acc0).avg_pace = acc0.avg_pace ++ matched.map (fun l => l.average_pace.getD 0)
      ∧ (pzFoldAcc matched acc0).avg_heart_rate = acc0.avg_heart_rate ++ matched.filterMap LapRow.average_heart_rate
      ∧ (pzFoldAcc matched acc0).avg_cadence = acc0.avg_cadence ++ matched.filterMap LapRow.average_cadence
      ∧ (pzFoldAcc matched acc0).avg_stride = acc0.avg_stride ++ matched.filterMap LapRow.average_stride_length := by
  intro matched
  induction matched with
  | nil => intro acc0; simp [pzFoldAcc]
  | cons l rest ih =>
    intro acc0
    have hstep : pzFoldAcc (l :: rest) acc0 =
        pzFoldAcc rest (pzPush acc0 l (l.average_pace.getD 0)) := rfl
    obtain ⟨h1, h2, h3, h4, h5, h6, h7⟩ := ih (pzPush acc0 l (l.average_pace.getD 0))
    rw [hstep]
    refine ⟨?_, ?_, ?_, ?_, ?_, ?_, ?_⟩
    · rw [h1]; simp [pzPush]; ring
    · rw [h2]; simp [pzPush]; ring
    · rw [h3]; simp [pzPush]; ring
    · rw [h4]; simp [pzPush]
    · rw [h5]; simp [pzPush, List.filterMap_cons]
      cases l.average_heart_rate <;> simp
    · rw [h6]; simp [pzPush, List.filterMap_cons]
      cases l.average_cadence <;> simp
    · rw [h7]; simp [pzPush, List.filterMap_cons]
      cases l.average_stride_length <;> simp

/-- The five output bands exactly as the spec words them, computed from
the matched laps of each zone by plain means. -/
def specBandC8 (bounds : ℤ → Option PaceBounds) (centers : ℤ → Option ℚ)
    (rows : List LapRow) (z : ℤ) : PaceZoneStat :=
  let matched := rows.filter (fun l => pzClassify bounds (l.average_pace.getD 0) = z)
  { zone := z
    target_pace_sec_per_km := (centers z).getD 0
    pace_min_sec_per_km := ((bounds z).map PaceBounds.paceMin).getD 0
    pace_max_sec_per_km := ((bounds z).map PaceBounds.paceMax).getD 0
    activity_count := matched.length
    total_duration := (matched.map LapRow.duration).sum
    total_distance := (matched.map LapRow.distance).sum
    avg_pace := plainMean (matched.map (fun l => l.average_pace.getD 0))
    avg_cadence := plainMean (matched.filterMap LapRow.average_cadence)
    avg_stride_length := plainMean (matched.filterMap LapRow.average_stride_length)
    avg_heart_rate := plainMean (matched.filterMap LapRow.average_heart_rate) }

/-- One rendered band of the pipeline equals the spec band. -/
theorem pzBand_eq_spec (bounds : ℤ → Option PaceBounds) (centers : ℤ → Option ℚ)
    (rows : List LapRow) (z : ℤ) (hz : z ≠ 0) :
    pzBand bounds centers (rows.foldl (pzStep bounds) (fun _ => pzAccInit)) z =
      specBandC8 bounds centers rows z := by
  unfold pzBand specBandC8
  rw [pzFold_apply bounds rows _ z hz]
  obtain ⟨h1, h2, h3, h4, h5, h6, h7⟩ := pzFoldAcc_fields
    (rows.filter (fun l => pzClassify bounds (l.average_pace.getD 0) = z)) pzAccInit
  unfold pzFoldAcc at h1 h2 h3 h4 h5 h6 h7
  simp only [h1, h2, h3, h4, h5, h6, h7]
  simp [pzAccInit, pzAverage_eq_plainMean, PaceZoneStat.mk.injEq]

/-- C8 (amended): for a positive fitness score the function returns
exactly the five bands for zones 1 through 5, each aggregating the laps
classified into the first matching band by count, summed duration and
distance, and plain arithmetic means of the pushed samples; for a
non-positive fitness score it returns the empty list instead. -/
theorem C8_paceZoneStats_amended (bounds : ℤ → Option PaceBounds) (centers : ℤ → Option ℚ)
    (laps : List LapRow) (vdot : ℚ) (sD eD : String) (hv : 0 < vdot) :
    getPaceZoneStats bounds centers laps vdot sD eD =
      [1, 2, 3, 4, 5].map (specBandC8 bounds centers (laps.filter (pzRowFilter sD eD)))
    ∧ ∀ v2 : ℚ, v2 ≤ 0 → getPaceZoneStats bounds centers laps v2 sD eD = [] := by
  constructor
  · unfold getPaceZoneStats
    rw [if_neg (not_le.mpr hv)]
    apply List.map_congr_left
    intro z hzmem
    apply pzBand_eq_spec
    simp only [List.mem_cons, List.not_mem_nil, or_false] at hzmem
    rcases hzmem with rfl | rfl | rfl | rfl | rfl <;> decide
  · intro v2 hv2
    simp [getPaceZoneStats, hv2]

/-- Counterexample for C8: with a zero fitness score the function
returns no bands at all, not five. -/
theorem C8_paceZoneStats_counterexample :
    (getPaceZoneStats (fun _ => none) (fun _ => none) [] 0 "2024-01-01" "2024-01-02").length ≠ 5 := by
  norm_num [getPaceZoneStats]

/-- Witness for C8 at a concrete positive fitness score. -/
theorem C8_paceZoneStats_amended_witness :
    getPaceZoneStats (fun _ => none) (fun _ => none) [] 50 "2024-01-01" "2024-01-02" =
      [1, 2, 3, 4, 5].map (specBandC8 (fun _ => none) (fun _ => none)
        (List.filter (pzRowFilter "2024-01-01" "2024-01-02") [])) :=
  (C8_paceZoneStats_amended (fun _ => none) (fun _ => none) [] 50 "2024-01-01" "2024-01-02"
    (by norm_num)).1

/-! ## Claim C6 -/

/-- A truthy sample moves the incremental mean by the update rule. -/
theorem incMean_sample (prev : ℚ) (cnt : ℤ) (s : ℚ) (hs : s ≠ 0) :
    incMean prev cnt (some s) = some ((prev * ((cnt : ℚ) - 1) + s) / (cnt : ℚ)) := by
  simp [incMean, hs]

/-- A falsy sample leaves the stored mean unchanged, provided the stored
mean is not exactly the (truthy-collapsed) zero. -/
theorem incMean_unchanged (prev : Option ℚ) (cnt : ℤ) (sample : Option ℚ)
    (hs : sample = none ∨ sample = some 0) (hprev : prev ≠ some 0) :
    incMean (orZero prev) cnt sample = prev := by
  have hcase : ∀ c : ℤ, incMean (orZero prev) c sample = truthyOrNone (orZero prev) := by
    intro c
    rcases hs with rfl | rfl
    · simp [incMean]
    · simp [incMean]
  rw [hcase cnt]
  cases prev with
  | none => simp [orZero, truthyOrNone]
  | some m =>
    have hm : m ≠ 0 := fun h => hprev (by rw [h])
    simp [orZero, truthyOrNone, hm]

/-- A falsy sample turns a stored mean of exactly zero into an absent
mean (the correction that claim C6 needs). -/
theorem incMean_zero_to_none (cnt : ℤ) (sample : Option ℚ)
    (hs : sample = none ∨ sample = some 0) :
    incMean (orZero (some 0)) cnt sample = none := by
  rcases hs with rfl | rfl <;> simp [incMean, orZero, truthyOrNone]

/-- Activities with an absent, zero, or unclassifiable heart rate are
ignored by one aggregation step. -/
theorem stepActivity_skip (maxHr : ℚ) (g : GroupBy) (m : List (String × HrZoneStat))
    (a : ActivityRow)
    (hskip : a.average_heart_rate = none ∨ a.average_heart_rate = some 0
      ∨ (∃ h, a.average_heart_rate = some h ∧ rtGetHrZone maxHr h = 0)) :
    stepActivity maxHr g m a = m := by
  rcases hskip with hnone | hzero | ⟨h, hh, hz⟩
  · simp [stepActivity, hnone]
  · simp [stepActivity, hzero]
  · simp [stepActivity, hh, hz]

/-- Activities with an absent, zero, or unclassifiable heart rate are
excluded from the realtime aggregation entirely: appending one to the
activity table leaves the result unchanged. -/
theorem realtime_excludes_unusable (maxHr : ℚ) (params : AnalysisParams)
    (acts : List ActivityRow) (a : ActivityRow)
    (hskip : a.average_heart_rate = none ∨ a.average_heart_rate = some 0
      ∨ (∃ h, a.average_heart_rate = some h ∧ rtGetHrZone maxHr h = 0)) :
    getHrZoneStatsRealtime maxHr (acts ++ [a]) params =
      getHrZoneStatsRealtime maxHr acts params := by
  have hstep : ∀ m, stepActivity maxHr params.groupBy m a = m :=
    fun m => stepActivity_skip maxHr params.groupBy m a hskip
  by_cases hf : rtRowFilter params a = true
  · simp only [getHrZoneStatsRealtime]
    rw [List.filter_append]
    have hfa : List.filter (rtRowFilter params) [a] = [a] := by simp [hf]
    rw [hfa, sortBy_append_singleton]
    obtain ⟨l1, l2, hins, hcat⟩ := insertLe_split startTimeLe a
      (sortBy startTimeLe (List.filter (rtRowFilter params) acts))
    rw [hins, foldl_skip_mid _ _ hstep l1 l2, hcat]
  · simp only [getHrZoneStatsRealtime]
    rw [List.filter_append]
    have hfa : List.filter (rtRowFilter params) [a] = [] := by
      simp [Bool.not_eq_true] at hf
      simp [hf]
    rw [hfa, List.append_nil]

/-- One aggregation step on a usable activity, spelled out. -/
theorem stepActivity_usable (maxHr : ℚ) (g : GroupBy) (m : List (String × HrZoneStat))
    (a : ActivityRow) (h : ℚ) (z : ℤ) (P : String)
    (ha : a.average_heart_rate = some h) (hn : h ≠ 0)
    (hz : rtGetHrZone maxHr h = z) (hz0 : z ≠ 0)
    (hp : rtGetPeriod g a.start_time = P) :
    stepActivity maxHr g m a =
      setKey m (P ++ "_" ++ toString z)
        (updateStat ((lookupKey m (P ++ "_" ++ toString z)).getD (initStat P g z)) a) := by
  simp [stepActivity, ha, hn, hz, hz0, hp]

/-- Folding two activities of the same period and zone produces a single
bucket holding both updates. -/
theorem fold_two_same_bucket (maxHr : ℚ) (g : GroupBy) (x y : ActivityRow)
    (hx hy : ℚ) (z : ℤ) (P : String)
    (hax : x.average_heart_rate = some hx) (hay : y.average_heart_rate = some hy)
    (hnx : hx ≠ 0) (hny : hy ≠ 0)
    (hzx : rtGetHrZone maxHr hx = z) (hzy : rtGetHrZone maxHr hy = z) (hz0 : z ≠ 0)
    (hpx : rtGetPeriod g x.start_time = P) (hpy : rtGetPeriod g y.start_time = P) :
    List.foldl (stepActivity maxHr g) [] [x, y] =
      [(P ++ "_" ++ toString z, updateStat (updateStat (initStat P g z) x) y)] := by
  have hsx := stepActivity_usable maxHr g [] x hx z P hax hnx hzx hz0 hpx
  simp only [List.foldl_cons, List.foldl_nil]
  rw [hsx]
  simp only [lookupKey, setKey, Option.getD_none]
  rw [stepActivity_usable maxHr g _ y hy z P hay hny hzy hz0 hpy]
  simp [lookupKey, setKey]

/-- C6 (amended): two activities with the same week period and the same
non-zero heart-rate zone produce exactly one rollup row: count 2, summed
duration and distance, and a heart-rate mean equal to the arithmetic
mean of the two non-zero samples.  Each truthy sample updates a mean via
newMean = (oldMean * (n - 1) + sample) / n; a zero or absent sample
leaves the stored mean unchanged unless the stored mean is exactly 0, in
which case it becomes absent.  Activities with a missing, zero or
unclassifiable (zone 0) heart rate are excluded from the aggregation
entirely. -/
theorem C6_zoneAggregator_amended :
    (∀ (maxHr : ℚ) (a1 a2 : ActivityRow) (h1 h2 : ℚ) (z : ℤ) (P : String),
      a1.average_heart_rate = some h1 → a2.average_heart_rate = some h2 →
      h1 ≠ 0 → h2 ≠ 0 →
      rtGetHrZone maxHr h1 = z → rtGetHrZone maxHr h2 = z → z ≠ 0 →
      rtGetPeriod GroupBy.week a1.start_time = P →
      rtGetPeriod GroupBy.week a2.start_time = P →
      (getHrZoneStatsRealtime maxHr [a1, a2] ⟨none, none, GroupBy.week⟩).map
          (fun r => (r.period, r.hr_zone, r.activity_count, r.total_duration,
            r.total_distance, r.avg_heart_rate)) =
        [(P, z, 2, orZero a1.duration + orZero a2.duration,
          orZero a1.distance + orZero a2.distance, some ((h1 + h2) / 2))])
    ∧ (∀ (stat : HrZoneStat) (activity : ActivityRow),
        (∀ s : ℚ, activity.average_heart_rate = some s → s ≠ 0 →
          (updateStat stat activity).avg_heart_rate =
            some ((orZero stat.avg_heart_rate * (((stat.activity_count + 1 : ℤ) : ℚ) - 1) + s) /
              ((stat.activity_count + 1 : ℤ) : ℚ)))
        ∧ ((activity.average_heart_rate = none ∨ activity.average_heart_rate = some 0) →
            stat.avg_heart_rate ≠ some 0 →
            (updateStat stat activity).avg_heart_rate = stat.avg_heart_rate)
        ∧ (∀ s : ℚ, activity.average_pace = some s → s ≠ 0 →
          (updateStat stat activity).avg_pace =
            some ((orZero stat.avg_pace * (((stat.activity_count + 1 : ℤ) : ℚ) - 1) + s) /
              ((stat.activity_count + 1 : ℤ) : ℚ)))
        ∧ ((activity.average_pace = none ∨ activity.average_pace = some 0) →
            stat.avg_pace ≠ some 0 →
            (updateStat stat activity).avg_pace = stat.avg_pace)
        ∧ (∀ s : ℚ, activity.average_cadence = some s → s ≠ 0 →
          (updateStat stat activity).avg_cadence =
            some ((orZero stat.avg_cadence * (((stat.activity_count + 1 : ℤ) : ℚ) - 1) + s) /
              ((stat.activity_count + 1 : ℤ) : ℚ)))
        ∧ ((activity.average_cadence = none ∨ activity.average_cadence = some 0) →
            stat.avg_cadence ≠ some 0 →
            (updateStat stat activity).avg_cadence = stat.avg_cadence)
        ∧ (∀ s : ℚ, activity.average_stride_length = some s → s ≠ 0 →
          (updateStat stat activity).avg_stride_length =
            some ((orZero stat.avg_stride_length * (((stat.activity_count + 1 : ℤ) : ℚ) - 1) + s) /
              ((stat.activity_count + 1 : ℤ) : ℚ)))
        ∧ ((activity.average_stride_length = none ∨ activity.average_stride_length = some 0) →
            stat.avg_stride_length ≠ some 0 →
            (updateStat stat activity).avg_stride_length = stat.avg_stride_length))
    ∧ (∀ (maxHr : ℚ) (params : AnalysisParams) (acts : List ActivityRow) (a : ActivityRow),
        (a.average_heart_rate = none ∨ a.average_heart_rate = some 0
          ∨ (∃ h, a.average_heart_rate = some h ∧ rtGetHrZone maxHr h = 0)) →
        getHrZoneStatsRealtime maxHr (acts ++ [a]) params =
          getHrZoneStatsRealtime maxHr acts params) := by
  refine ⟨?_, ?_, fun maxHr params acts a h => realtime_excludes_unusable maxHr params acts a h⟩
  · intro maxHr a1 a2 h1 h2 z P ha1 ha2 hn1 hn2 hz1 hz2 hz0 hp1 hp2
    have hfilter : List.filter (rtRowFilter ⟨none, none, GroupBy.week⟩) [a1, a2] = [a1, a2] := by
      simp [rtRowFilter, ha1, ha2]
    unfold getHrZoneStatsRealtime
    rw [hfilter]
    have hfields : ∀ (x y : ActivityRow) (hx hy : ℚ),
        x.average_heart_rate = some hx → y.average_heart_rate = some hy →
        hx ≠ 0 → hy ≠ 0 →
        rtGetHrZone maxHr hx = z → rtGetHrZone maxHr hy = z →
        rtGetPeriod GroupBy.week x.start_time = P →
        rtGetPeriod GroupBy.week y.start_time = P →
        (sortBy hrRowLe
            ((List.foldl (stepActivity maxHr GroupBy.week) [] [x, y]).map Prod.snd)).map
          (fun r => (r.period, r.hr_zone, r.activity_count, r.total_duration,
            r.total_distance, r.avg_heart_rate)) =
        [(P, z, 2, orZero x.duration + orZero y.duration,
          orZero x.distance + orZero y.distance, some ((hx + hy) / 2))] := by
      intro x y hx hy hax hay hnx hny hzx hzy hpx hpy
      rw [fold_two_same_bucket maxHr GroupBy.week x y hx hy z P hax hay hnx hny hzx hzy hz0 hpx hpy]
      simp only [List.map_cons, List.map_nil, sortBy, List.foldl_cons, List.foldl_nil, insertLe]
      simp only [updateStat, initStat, orZero, Option.getD_none]
      rw [hax, hay]
      rw [incMean_sample _ _ _ hnx, incMean_sample _ _ _ hny]
      simp only [List.map_cons, List.map_nil, Prod.mk.injEq, List.cons.injEq, and_true]
      refine ⟨trivial, trivial, by norm_num, by ring, by ring, ?_⟩
      simp only [Option.getD_some, Option.some.injEq]
      push_cast
      ring
    by_cases hord : startTimeLe a1 a2 = true
    · have hsort : sortBy startTimeLe [a1, a2] = [a1, a2] := by
        simp [sortBy, insertLe, hord]
      rw [hsort]
      exact hfields a1 a2 h1 h2 ha1 ha2 hn1 hn2 hz1 hz2 hp1 hp2
    · have hsort : sortBy startTimeLe [a1, a2] = [a2, a1] := by
        simp [sortBy, insertLe, hord]
      rw [hsort]
      have := hfields a2 a1 h2 h1 ha2 ha1 hn2 hn1 hz2 hz1 hp2 hp1
      rw [this]
      have hd : orZero a2.duration + orZero a1.duration = orZero a1.duration + orZero a2.duration := by ring
      have hdist : orZero a2.distance + orZero a1.distance = orZero a1.distance + orZero a2.distance := by ring
      have hhr : (h2 + h1) / 2 = (h1 + h2) / 2 := by ring
      rw [hd, hdist, hhr]
  · intro stat activity
    refine ⟨?_, ?_, ?_, ?_, ?_, ?_, ?_, ?_⟩ <;>
      first
      | (intro s hs hns
         simp only [updateStat, hs]
         rw [incMean_sample _ _ _ hns])
      | (intro hs hv
         simp only [updateStat]
         rcases hs with hval | hval <;> rw [hval] <;>
           exact incMean_unchanged _ _ _ (by simp) hv)

/-- Concrete activities for the C6 counterexample: same day, same zone
(heart rate 140 of max 190), pace samples 2, -2 and absent. -/
def c6act (st : String) (pace : Option ℚ) : ActivityRow :=
  { activity_id := 1
    start_time := st
    duration := some 600
    distance := some 2
    average_pace := pace
    average_cadence := none
    average_stride_length := none
    average_heart_rate := some 140
    vdot_value := none }

/-- Query parameters with no date bounds, grouped by week. -/
def c6params : AnalysisParams := ⟨none, none, GroupBy.week⟩

/-- Counterexample for C6: after two pace samples 2 and -2 the stored
pace mean is exactly 0; a third activity with an absent pace sample then
flips the stored mean from 0 to absent instead of leaving it unchanged,
refuting the claim that a zero/absent sample always leaves the mean
unchanged. -/
theorem C6_zoneAggregator_counterexample :
    (getHrZoneStatsRealtime 190
        [c6act "2024-03-04T08:00:00Z" (some 2), c6act "2024-03-04T09:00:00Z" (some (-2))]
        c6params).map HrZoneStat.avg_pace = [some 0]
    ∧ (getHrZoneStatsRealtime 190
        [c6act "2024-03-04T08:00:00Z" (some 2), c6act "2024-03-04T09:00:00Z" (some (-2)),
          c6act "2024-03-04T10:00:00Z" none]
        c6params).map HrZoneStat.avg_pace = [none]
    ∧ ¬ ((getHrZoneStatsRealtime 190
        [c6act "2024-03-04T08:00:00Z" (some 2), c6act "2024-03-04T09:00:00Z" (some (-2)),
          c6act "2024-03-04T10:00:00Z" none]
        c6params).map HrZoneStat.avg_pace =
      (getHrZoneStatsRealtime 190
        [c6act "2024-03-04T08:00:00Z" (some 2), c6act "2024-03-04T09:00:00Z" (some (-2))]
        c6params).map HrZoneStat.avg_pace) := by
  have hz : rtGetHrZone 190 140 = 2 := by norm_num [rtGetHrZone]
  have hp1 : rtGetPeriod GroupBy.week "2024-03-04T08:00:00Z" = "2024-W10" := by decide
  have hp2 : rtGetPeriod GroupBy.week "2024-03-04T09:00:00Z" = "2024-W10" := by decide
  have hp3 : rtGetPeriod GroupBy.week "2024-03-04T10:00:00Z" = "2024-W10" := by decide
  refine ⟨?_, ?_, ?_⟩
  · norm_num +decide [getHrZoneStatsRealtime, c6act, c6params, rtRowFilter, sortBy, insertLe,
      stepActivity, hz, hp1, hp2, lookupKey, setKey, initStat, updateStat,
      incMean, orZero, truthyOrNone, hrRowLe]
  · norm_num +decide [getHrZoneStatsRealtime, c6act, c6params, rtRowFilter, sortBy, insertLe,
      stepActivity, hz, hp1, hp2, hp3, lookupKey, setKey, initStat,
      updateStat, incMean, orZero, truthyOrNone, hrRowLe]
  · norm_num +decide [getHrZoneStatsRealtime, c6act, c6params, rtRowFilter, sortBy, insertLe,
      stepActivity, hz, hp1, hp2, hp3, lookupKey, setKey, initStat,
      updateStat, incMean, orZero, truthyOrNone, hrRowLe]

/-- Witness for C6, discharging the two-activity hypotheses at concrete
activities with heart rates 140 and 150. -/
theorem C6_zoneAggregator_amended_witness :
    (getHrZoneStatsRealtime 190
        [c6act "2024-03-04T08:00:00Z" (some 2),
          { c6act "2024-03-04T09:00:00Z" none with average_heart_rate := some 150 }]
        ⟨none, none, GroupBy.week⟩).map
        (fun r => (r.period, r.hr_zone, r.activity_count, r.total_duration,
          r.total_distance, r.avg_heart_rate)) =
      [("2024-W10", 2, 2,
        orZero (c6act "2024-03-04T08:00:00Z" (some 2)).duration +
          orZero ({ c6act "2024-03-04T09:00:00Z" none with average_heart_rate := some 150 } : ActivityRow).duration,
        orZero (c6act "2024-03-04T08:00:00Z" (some 2)).distance +
          orZero ({ c6act "2024-03-04T09:00:00Z" none with average_heart_rate := some 150 } : ActivityRow).distance,
        some ((140 + 150) / 2))] :=
  C6_zoneAggregator_amended.1 190
    (c6act "2024-03-04T08:00:00Z" (some 2))
    ({ c6act "2024-03-04T09:00:00Z" none with average_heart_rate := some 150 })
    140 150 2 "2024-W10"
    (by decide) (by decide) (by norm_num) (by norm_num)
    (by norm_num [rtGetHrZone]) (by norm_num [rtGetHrZone]) (by norm_num)
    (by decide) (by decide)

/-! ## Claims C1 and C10 -/

/-- The freshness threshold date string is never empty (it always
contains two dashes). -/
theorem freshDateOf_ne_empty (now : ℤ) : freshDateOf now ≠ "" := by
  unfold freshDateOf isoDateOfMs
  intro h
  have hlen := congrArg String.length h
  rw [String.length_append, String.length_append, String.length_append,
    String.length_append] at hlen
  have hdash : ("-" : String).length = 1 := rfl
  have hnil : ("" : String).length = 0 := rfl
  rw [hdash, hnil] at hlen
  omega

/-- Every row returned by the cache query with a non-empty end date has
its period bounded by the period of that end date. -/
theorem mem_cacheHr_period_le (cache : List HrZoneStat) (params : AnalysisParams)
    (e : String) (he : params.endDate = some e) (hne : e ≠ "") :
    ∀ r ∈ getHrZoneStatsFromCache cache params,
      strLeB r.period (getPeriodFromDate e params.groupBy) = true := by
  intro r hr
  simp only [getHrZoneStatsFromCache] at hr
  rw [mem_sortBy] at hr
  have hp := (List.mem_filter.1 hr).2
  simp only [he, Bool.and_eq_true] at hp
  have hb := hp.2
  rwa [if_pos hne] at hb

/-- Every row returned by the trend cache query with a non-empty end
date has its period bounded by the period of that end date. -/
theorem mem_cacheVdot_period_le (cache : List VDOTTrendPoint) (params : AnalysisParams)
    (e : String) (he : params.endDate = some e) (hne : e ≠ "") :
    ∀ r ∈ getVDOTTrendFromCache cache params,
      strLeB r.period (getPeriodFromDate e params.groupBy) = true := by
  intro r hr
  simp only [getVDOTTrendFromCache] at hr
  obtain ⟨r0, hr0, rfl⟩ := List.mem_map.1 hr
  rw [mem_sortBy] at hr0
  have hp := (List.mem_filter.1 hr0).2
  simp only [he, Bool.and_eq_true] at hp
  have hb := hp.2
  rw [if_pos hne] at hb
  simpa using hb

/-- The hybrid branch exactly as claim C1 words it: cached rollups
restricted to the half-open window [start, threshold), that is with
period strictly below the period of the threshold date, concatenated
with the live rollups for [threshold, end] and re-sorted. -/
def hrZoneStatsClaimC1 (maxHr : ℚ) (cache : List HrZoneStat) (activities : List ActivityRow)
    (now : ℤ) (params : AnalysisParams) : List HrZoneStat :=
  let freshDate := freshDateOf now
  let cachedPart := (getHrZoneStatsFromCache cache { params with endDate := some freshDate }).filter
    (fun r => strLtB r.period (getPeriodFromDate freshDate params.groupBy))
  let livePart := getHrZoneStatsRealtime maxHr activities { params with startDate := some freshDate }
  sortBy hrRowLe (cachedPart ++ livePart)

/-- C1 (amended): with the threshold date computed from the fixed query
time, an end date strictly before the threshold serves both metrics
entirely from the cache tables; otherwise a start date on/after the
threshold serves both entirely from the realtime aggregation; otherwise
both metrics are the concatenation of the cache query bounded by the
threshold date (whose period filter is inclusive of the threshold
period, not half-open) and the realtime aggregation from the threshold
date, re-sorted by (period, zone) and by period respectively. -/
theorem C1_hybridResolver_amended (maxHr : ℚ) (cacheH : List HrZoneStat)
    (cacheV : List VDOTTrendPoint) (acts : List ActivityRow) (now : ℤ)
    (params : AnalysisParams) :
    ((truthyStr params.endDate && strLtB (params.endDate.getD "") (freshDateOf now)) = true →
      getHrZoneStats maxHr cacheH acts now params = getHrZoneStatsFromCache cacheH params
      ∧ getVDOTTrend cacheV acts now params = getVDOTTrendFromCache cacheV params)
    ∧ ((truthyStr params.endDate && strLtB (params.endDate.getD "") (freshDateOf now)) = false →
       (truthyStr params.startDate && strGeB (params.startDate.getD "") (freshDateOf now)) = true →
      getHrZoneStats maxHr cacheH acts now params = getHrZoneStatsRealtime maxHr acts params
      ∧ getVDOTTrend cacheV acts now params = getVDOTTrendRealtime acts params)
    ∧ ((truthyStr params.endDate && strLtB (params.endDate.getD "") (freshDateOf now)) = false →
       (truthyStr params.startDate && strGeB (params.startDate.getD "") (freshDateOf now)) = false →
      getHrZoneStats maxHr cacheH acts now params =
        mergeHrZoneStats
          (getHrZoneStatsFromCache cacheH { params with endDate := some (freshDateOf now) })
          (getHrZoneStatsRealtime maxHr acts { params with startDate := some (freshDateOf now) })
      ∧ getVDOTTrend cacheV acts now params =
        mergeVDOTTrend
          (getVDOTTrendFromCache cacheV { params with endDate := some (freshDateOf now) })
          (getVDOTTrendRealtime acts { params with startDate := some (freshDateOf now) })
      ∧ (∀ r ∈ getHrZoneStatsFromCache cacheH { params with endDate := some (freshDateOf now) },
          strLeB r.period (getPeriodFromDate (freshDateOf now) params.groupBy) = true)
      ∧ (∀ r ∈ getVDOTTrendFromCache cacheV { params with endDate := some (freshDateOf now) },
          strLeB r.period (getPeriodFromDate (freshDateOf now) params.groupBy) = true)) := by
  refine ⟨?_, ?_, ?_⟩
  · intro h1
    constructor
    · simp only [getHrZoneStats]
      rw [if_pos h1]
    · simp only [getVDOTTrend]
      rw [if_pos h1]
  · intro h1 h2
    constructor
    · simp only [getHrZoneStats]
      rw [if_neg (by simp [h1]), if_pos h2]
    · simp only [getVDOTTrend]
      rw [if_neg (by simp [h1]), if_pos h2]
  · intro h1 h2
    refine ⟨?_, ?_, ?_, ?_⟩
    · simp only [getHrZoneStats]
      rw [if_neg (by simp [h1]), if_neg (by simp [h2])]
    · simp only [getVDOTTrend]
      rw [if_neg (by simp [h1]), if_neg (by simp [h2])]
    · exact mem_cacheHr_period_le cacheH _ (freshDateOf now) rfl (freshDateOf_ne_empty now)
    · exact mem_cacheVdot_period_le cacheV _ (freshDateOf now) rfl (freshDateOf_ne_empty now)

/-- The concrete query instant for the hybrid counterexamples:
2024-03-15 UTC midnight, so the freshness threshold is 2024-03-08. -/
def c10now : ℤ := parseDateMs "2024-03-15T00:00:00Z"

/-- A straddling query range: 2024-03-01 to 2024-03-10, weekly. -/
def c10params : AnalysisParams := ⟨some "2024-03-01", some "2024-03-10", GroupBy.week⟩

/-- A cached rollup row whose period (2024-W10) is the period containing
the threshold date. -/
def c10cacheRow : HrZoneStat :=
  { period := "2024-W10"
    period_type := "week"
    hr_zone := 2
    activity_count := 1
    total_duration := 3600
    total_distance := 10
    avg_pace := some 360
    avg_cadence := none
    avg_stride_length := none
    avg_heart_rate := some 150 }

/-- An activity on the threshold date itself, classified into zone 2 of
period 2024-W10 by the realtime path. -/
def c10act : ActivityRow :=
  { activity_id := 7
    start_time := "2024-03-08T10:00:00Z"
    duration := some 3600
    distance := some 10
    average_pace := some 360
    average_cadence := none
    average_stride_length := none
    average_heart_rate := some 140
    vdot_value := some 50 }

/-- Witness for C1, discharging the cache-branch condition at a query
whose end date lies strictly before the threshold. -/
theorem C1_hybridResolver_amended_witness :
    getHrZoneStats 190 [] [] c10now ⟨some "2024-03-01", some "2024-03-02", GroupBy.week⟩ =
      getHrZoneStatsFromCache [] ⟨some "2024-03-01", some "2024-03-02", GroupBy.week⟩
    ∧ getVDOTTrend [] [] c10now ⟨some "2024-03-01", some "2024-03-02", GroupBy.week⟩ =
      getVDOTTrendFromCache [] ⟨some "2024-03-01", some "2024-03-02", GroupBy.week⟩ :=
  (C1_hybridResolver_amended 190 [] [] [] c10now
    ⟨some "2024-03-01", some "2024-03-02", GroupBy.week⟩).1 (by decide)

/-- Counterexample for C1: the displayed query straddles the threshold
(neither pure branch fires), and the code output differs from the
half-open claim version, because the cache query keeps the rollup of the
period containing the threshold date. -/
theorem C1_hybridResolver_counterexample :
    (truthyStr c10params.endDate && strLtB (c10params.endDate.getD "") (freshDateOf c10now)) = false
    ∧ (truthyStr c10params.startDate && strGeB (c10params.startDate.getD "") (freshDateOf c10now)) = false
    ∧ getHrZoneStats 190 [c10cacheRow] [c10act] c10now c10params ≠
        hrZoneStatsClaimC1 190 [c10cacheRow] [c10act] c10now c10params := by
  have hfresh : freshDateOf c10now = "2024-03-08" := by decide
  have hz : rtGetHrZone 190 140 = 2 := by norm_num [rtGetHrZone]
  have hper : rtGetPeriod GroupBy.week "2024-03-08T10:00:00Z" = "2024-W10" := by decide
  have hpstart : getPeriodFromDate "2024-03-01" GroupBy.week = "2024-W09" := by decide
  have hpend : getPeriodFromDate "2024-03-08" GroupBy.week = "2024-W10" := by decide
  refine ⟨by decide, by decide, ?_⟩
  intro h
  have hlen := congrArg List.length h
  norm_num +decide [getHrZoneStats, hrZoneStatsClaimC1, hfresh, c10params, c10cacheRow, c10act,
    getHrZoneStatsFromCache, getHrZoneStatsRealtime, rtRowFilter, sortBy, insertLe,
    stepActivity, hz, hper, hpstart, hpend, lookupKey, setKey, initStat, updateStat,
    incMean, orZero, truthyOrNone, hrRowLe, mergeHrZoneStats, GroupBy.toStr] at hlen

/-- C10: the hybrid merge concatenates the cache-path and realtime-path
rows without de-duplication: the merged list is a permutation of the
concatenation (every row of both inputs appears exactly as often as in
the inputs), sorted by (period, zone) for the heart-rate metric and by
period for the fitness trend; and on a concrete straddling query the
period containing the threshold is contributed by both paths, producing
two rows with the same (period, zone) key. -/
theorem C10_merge_no_dedup :
    (∀ c r : List HrZoneStat, (mergeHrZoneStats c r).Perm (c ++ r))
    ∧ (∀ (c r : List HrZoneStat) (x : HrZoneStat),
        List.count x (mergeHrZoneStats c r) = List.count x c + List.count x r)
    ∧ (∀ c r : List HrZoneStat,
        (mergeHrZoneStats c r).Pairwise (fun a b => hrRowLe a b = true))
    ∧ (∀ c r : List VDOTTrendPoint, (mergeVDOTTrend c r).Perm (c ++ r))
    ∧ (∀ c r : List VDOTTrendPoint,
        (mergeVDOTTrend c r).Pairwise (fun a b => vdotRowLe a b = true))
    ∧ (List.filter (fun row => row.period = "2024-W10" && row.hr_zone = 2)
        (getHrZoneStats 190 [c10cacheRow] [c10act] c10now c10params)).length = 2 := by
  refine ⟨?_, ?_, ?_, ?_, ?_, ?_⟩
  · intro c r
    exact sortBy_perm hrRowLe (c ++ r)
  · intro c r x
    unfold mergeHrZoneStats
    rw [(sortBy_perm hrRowLe (c ++ r)).count_eq, List.count_append]
  · intro c r
    exact pairwise_sortBy hrRowLe hrRowLe_trans hrRowLe_total (c ++ r)
  · intro c r
    exact sortBy_perm vdotRowLe (c ++ r)
  · intro c r
    exact pairwise_sortBy vdotRowLe vdotRowLe_trans vdotRowLe_total (c ++ r)
  · have hfresh : freshDateOf c10now = "2024-03-08" := by decide
    have hz : rtGetHrZone 190 140 = 2 := by norm_num [rtGetHrZone]
    have hper : rtGetPeriod GroupBy.week "2024-03-08T10:00:00Z" = "2024-W10" := by decide
    have hpstart : getPeriodFromDate "2024-03-01" GroupBy.week = "2024-W09" := by decide
    have hpend : getPeriodFromDate "2024-03-08" GroupBy.week = "2024-W10" := by decide
    norm_num +decide [getHrZoneStats, hfresh, c10params, c10cacheRow, c10act,
      getHrZoneStatsFromCache, getHrZoneStatsRealtime, rtRowFilter, sortBy, insertLe,
      stepActivity, hz, hper, hpstart, hpend, lookupKey, setKey, initStat, updateStat,
      incMean, orZero, truthyOrNone, hrRowLe, mergeHrZoneStats, GroupBy.toStr]

end PbRun
